import Mathlib

/-!
Verification development for the Sohay autonomous Task Agent core
(`sohay_agent.py`, with the shell collaborator from `sohay_runner.py`).

Shallow embedding conventions:
* Timestamps (`time.time()`, `datetime.datetime.now()`, deadlines, `next_run`,
  `created_at`, `completed_at`) are modelled as `Int` seconds.  Every operation
  that reads the clock in Python takes the current time `now : Int` as an
  explicit argument.  `timedelta` arithmetic becomes `Int` arithmetic with
  `days = Int.fdiv Δ 86400` and `seconds = Int.fmod Δ 86400`, matching Python's
  floor-division normalisation of `timedelta`.
* Task ids (`int(time.time() * 1000)`, "Unique ID based on timestamp" in the
  source) are modelled by an explicit `fresh : Int` argument to the operations
  that construct tasks; the transition relation at the end of the file carries
  the uniqueness assumption stated by that source comment.
* External collaborators (`google_search`, browser, `read_file`,
  `execute_shell_command`, `search_and_format`) are oracles returning
  `Except String String`; a raised Python exception is `Except.error msg`.
* File persistence (`save_tasks` / `save_memory` / `load_*`) rewrites the full
  state and, on load, missing or corrupt data yields the empty stores; the
  in-memory state is the whole model, so `save_*` are identities here and the
  initial agent starts from the empty stores.
* Python strings are ASCII in every string this program manipulates; helpers
  below implement the exact `str` operations used (`in`, `split`, `strip`,
  `lower`, `isdigit`, `startswith`) by structural recursion on `List Char`.
-/

set_option linter.unusedVariables false

/-- Python `needle in hay` on lists of characters (substring containment). -/
def containsCA (n : List Char) : List Char → Bool
  | [] => n.isEmpty
  | c :: rest => n.isPrefixOf (c :: rest) || containsCA n rest

/-- Python `needle in hay` for strings. -/
def pyIn (needle hay : String) : Bool :=
  containsCA needle.data hay.data

/-- Split a character list at the first occurrence of `sep` (which is assumed
nonempty, as everywhere in the source): `some (before, after)` or `none` when
`sep` does not occur.  Fuel-based structural recursion so that the kernel can
evaluate it. -/
def breakOnAux (sep : List Char) : Nat → List Char → Option (List Char × List Char)
  | _, [] => none
  | 0, _ => none
  | fuel + 1, c :: rest =>
    if sep.isPrefixOf (c :: rest) then
      some ([], (c :: rest).drop sep.length)
    else
      match breakOnAux sep fuel rest with
      | some (b, a) => some (c :: b, a)
      | none => none

/-- Split at the first occurrence of `sep`. -/
def breakOn (sep hay : List Char) : Option (List Char × List Char) :=
  breakOnAux sep hay.length hay

/-- Python `s.split(sep, 1)`: at most two parts. -/
def pySplit1 (s sep : String) : List String :=
  match breakOn sep.data s.data with
  | some (b, a) => [String.mk b, String.mk a]
  | none => [s]

/-- Python `s.split(sep)[1]` when the separator occurs: the segment between the
first and the second occurrence of `sep` (used on `"about"`, `"to"`,
`"command"`, `"run"` in `execute_step`).  `none` when `sep` does not occur. -/
def pySplitSecond (s sep : String) : Option String :=
  match breakOn sep.data s.data with
  | some (_, a) =>
    match breakOn sep.data a with
    | some (b, _) => some (String.mk b)
    | none => some (String.mk a)
  | none => none

/-- Python `s.split()` (split on whitespace runs, dropping empty parts),
on character lists; `acc` is the current word, reversed. -/
def splitWSAux : List Char → List Char → List (List Char)
  | acc, [] => if acc.isEmpty then [] else [acc.reverse]
  | acc, c :: rest =>
    if c.isWhitespace then
      if acc.isEmpty then splitWSAux [] rest
      else acc.reverse :: splitWSAux [] rest
    else splitWSAux (c :: acc) rest

/-- Python `s.split()` for strings. -/
def pySplitWS (s : String) : List String :=
  (splitWSAux [] s.data).map String.mk

/-- Drop the given character from both ends of a character list. -/
def stripCharCA (c : Char) (l : List Char) : List Char :=
  ((l.dropWhile (· == c)).reverse.dropWhile (· == c)).reverse

/-- Python `s.strip(c)` for a single-character strip set. -/
def pyStripChar (c : Char) (s : String) : String :=
  String.mk (stripCharCA c s.data)

/-- Python `s.strip()` (whitespace). -/
def pyStrip (s : String) : String :=
  String.mk (((s.data.dropWhile Char.isWhitespace).reverse.dropWhile Char.isWhitespace).reverse)

/-- ASCII lower-casing of one character (all goals and steps in the source are
ASCII). -/
def charLower (c : Char) : Char :=
  if 65 ≤ c.toNat && c.toNat ≤ 90 then Char.ofNat (c.toNat + 32) else c

/-- Python `s.lower()`. -/
def pyLower (s : String) : String :=
  String.mk (s.data.map charLower)

/-- Python `s.isdigit()` for ASCII strings: nonempty and all digits. -/
def pyIsDigit (s : String) : Bool :=
  !s.data.isEmpty && s.data.all Char.isDigit

/-- Digits of an ASCII-digit string as a natural number. -/
def digitsToNat (l : List Char) : Nat :=
  l.foldl (fun acc c => 10 * acc + (c.toNat - 48)) 0

/-- Python `int(s)` on strings, as used by `get_task`: optional sign followed
by digits; `none` models the `ValueError` caught by the surrounding `try`. -/
def pyInt (s : String) : Option Int :=
  match (pyStrip s).data with
  | [] => none
  | '-' :: rest => if !rest.isEmpty && rest.all Char.isDigit then some (-(digitsToNat rest : Int)) else none
  | l => if l.all Char.isDigit then some (digitsToNat l : Int) else none

/-- Replace the first element satisfying `p` by its image under `f` (the
functional rendering of mutating, through a Python object reference, the first
list element that a lookup found). -/
def modifyFirst (p : α → Bool) (f : α → α) : List α → List α
  | [] => []
  | x :: xs => if p x then f x :: xs else x :: modifyFirst p f xs

/-- Substring containment as a proposition, for stating that an error text is
captured inside a step result. -/
def ContainsSub (needle hay : String) : Prop :=
  ∃ p q : String, hay = p ++ needle ++ q

namespace Sohay

/-! ## Data model (`sohay_agent.py`, class `Task`) -/

/-- Task status enum: `"pending"`, `"in_progress"`, `"completed"`, `"failed"`. -/
inductive Status where
  | pending
  | inProgress
  | completed
  | failed
deriving DecidableEq, Repr

/-- Agent states (`AGENT_STATES` in the source). -/
inductive AgentState where
  | idle
  | planning
  | executing
  | reflecting
  | learning
deriving DecidableEq, Repr

/-- Recurring-task schedule: `{"type": ..., "interval": ...}` (the `created_at`
entry of the schedule dict is stored by `set_schedule` but never read, and is
dropped here). -/
structure Schedule where
  ty : String
  interval : Int
deriving DecidableEq, Repr

/-- The `Task` class. -/
structure Task where
  id : Int
  goal : String
  priority : Int
  deadline : Option Int
  createdAt : Int
  completedAt : Option Int
  status : Status
  plan : List String
  currentStep : Nat
  results : List String
  notes : List String
  dependencies : List Int
  blockedBy : List Int
  schedule : Option Schedule
  nextRun : Option Int
deriving DecidableEq, Repr

/-- `Task.__init__(goal, priority, deadline)`; `fresh` is the time-derived id
and `now` the creation clock. -/
def Task.new (goal : String) (priority : Int) (deadline : Option Int)
    (fresh : Int) (now : Int) : Task :=
  { id := fresh
    goal := goal
    priority := priority
    deadline := deadline
    createdAt := now
    completedAt := none
    status := .pending
    plan := []
    currentStep := 0
    results := []
    notes := []
    dependencies := []
    blockedBy := []
    schedule := none
    nextRun := none }

/-- `Task.mark_complete`. -/
def Task.markComplete (t : Task) (now : Int) : Task :=
  { t with status := .completed, completedAt := some now }

/-- `Task.add_dependency`. -/
def Task.addDependency (t : Task) (depId : Int) : Task :=
  if depId ∈ t.dependencies then t
  else { t with dependencies := t.dependencies ++ [depId] }

/-- `Task.is_blocked`. -/
def Task.isBlocked (t : Task) : Bool :=
  t.blockedBy.length > 0

/-- `Task.update_blocked_status`. -/
def Task.updateBlockedStatus (t : Task) (completedIds : List Int) : Task :=
  { t with blockedBy := t.dependencies.filter (fun depId => !completedIds.contains depId) }

/-- `Task.calculate_next_run` (a month is approximated as 30 days; unknown
schedule types default to one day). -/
def Task.calculateNextRun (t : Task) (now : Int) : Task :=
  match t.schedule with
  | none => { t with nextRun := none }
  | some s =>
    if s.ty = "minutes" then { t with nextRun := some (now + 60 * s.interval) }
    else if s.ty = "hourly" then { t with nextRun := some (now + 3600 * s.interval) }
    else if s.ty = "daily" then { t with nextRun := some (now + 86400 * s.interval) }
    else if s.ty = "weekly" then { t with nextRun := some (now + 604800 * s.interval) }
    else if s.ty = "monthly" then { t with nextRun := some (now + 86400 * (30 * s.interval)) }
    else { t with nextRun := some (now + 86400) }

/-- `Task.set_schedule`. -/
def Task.setSchedule (t : Task) (ty : String) (interval : Int) (now : Int) : Task :=
  Task.calculateNextRun { t with schedule := some ⟨ty, interval⟩ } now

/-! ## Agent state (`class SohayAgent`) -/

/-- The mutable fields of `SohayAgent`.  `active_task` is a Python object
reference into `tasks`; since ids are unique by construction, it is modelled by
the task id.  The `sohay` back-reference and the two persistence file names are
not part of the state (collaborators are passed as an environment). -/
structure SohayAgent where
  tasks : List Task
  activeTask : Option Int
  state : AgentState
  memory : List String
  longTermMemory : List (String × List String)
  autonomousMode : Bool
  lastActionTime : Int
  checkInterval : Int
  scheduledTasks : List Int
deriving DecidableEq, Repr

/-- `SohayAgent.__init__` with no persisted data (`load_tasks` / `load_memory`
on a missing or malformed file yield the empty stores). -/
def initialAgent : SohayAgent :=
  { tasks := []
    activeTask := none
    state := .idle
    memory := []
    longTermMemory := []
    autonomousMode := false
    lastActionTime := 0
    checkInterval := 60
    scheduledTasks := [] }

/-- First task with the given id (Python's object lookup
`next((t for t in self.tasks if t.id == task_id), None)`). -/
def findTask (tasks : List Task) (i : Int) : Option Task :=
  tasks.find? (fun t => t.id == i)

/-- The object currently referenced by `self.active_task` (always a member of
`tasks` in every reachable state, because deletion clears the reference). -/
def activeTaskObj (a : SohayAgent) : Option Task :=
  a.activeTask.bind (findTask a.tasks)

/-- `SohayAgent.get_task(task_id_or_index)` with the string argument the
command surface passes: a digit string is tried as a 1-based index first, then
the argument is parsed as an id. -/
def getTask (a : SohayAgent) (s : String) : Option Task :=
  if pyIsDigit s then
    if 0 ≤ (digitsToNat (pyStrip s).data : Int) - 1 ∧
        (digitsToNat (pyStrip s).data : Int) - 1 < a.tasks.length then
      a.tasks.get? ((digitsToNat (pyStrip s).data : Int) - 1).toNat
    else
      match pyInt s with
      | some tid => findTask a.tasks tid
      | none => none
  else
    match pyInt s with
    | some tid => findTask a.tasks tid
    | none => none

/-- `SohayAgent.enable_autonomous_mode`. -/
def enableAutonomousMode (a : SohayAgent) : SohayAgent × String :=
  ({ a with autonomousMode := true },
   "Autonomous mode enabled. I will proactively work on tasks and keep you updated.")

/-- `SohayAgent.disable_autonomous_mode`. -/
def disableAutonomousMode (a : SohayAgent) : SohayAgent × String :=
  ({ a with autonomousMode := false },
   "Autonomous mode disabled. I will only act when specifically instructed.")

/-- `SohayAgent.activate_task`: note that the previously active task's status
is left untouched. -/
def activateTask (a : SohayAgent) (s : String) : SohayAgent × String :=
  match getTask a s with
  | none => (a, "Task " ++ s ++ " not found.")
  | some t =>
    ({ a with
        activeTask := some t.id
        tasks := modifyFirst (fun u => u.id == t.id) (fun u => { u with status := .inProgress }) a.tasks
        state := .planning },
     "Activated task: " ++ t.goal)

/-- `SohayAgent.complete_task`. -/
def completeTask (a : SohayAgent) (s : String) (now : Int) : SohayAgent × String :=
  match getTask a s with
  | none => (a, "Task " ++ s ++ " not found.")
  | some t =>
    let tasks := modifyFirst (fun u => u.id == t.id) (fun u => u.markComplete now) a.tasks
    if a.activeTask = some t.id then
      ({ a with tasks := tasks, activeTask := none, state := .idle },
       "Marked task as completed: " ++ t.goal)
    else
      ({ a with tasks := tasks }, "Marked task as completed: " ++ t.goal)

/-- `SohayAgent.delete_task`. -/
def deleteTask (a : SohayAgent) (s : String) : SohayAgent × String :=
  match getTask a s with
  | none => (a, "Task " ++ s ++ " not found.")
  | some t =>
    let tasks := a.tasks.filter (fun u => u.id != t.id)
    if a.activeTask = some t.id then
      ({ a with tasks := tasks, activeTask := none, state := .idle },
       "Deleted task: " ++ t.goal)
    else
      ({ a with tasks := tasks }, "Deleted task: " ++ t.goal)

/-- `SohayAgent.add_to_memory`: bounded short-term store (capacity 20, FIFO,
no exact duplicates) and per-category long-term store (capacity 50, FIFO,
no exact duplicates).  The long-term dict is an insertion-ordered association
list with unique keys. -/
def addToMemory (a : SohayAgent) (category insight : String) : SohayAgent :=
  let memory :=
    if insight ∈ a.memory then a.memory
    else
      let m := a.memory ++ [insight]
      if m.length > 20 then m.tail else m
  let ltm0 :=
    if (a.longTermMemory.find? (fun p => p.1 == category)).isNone then
      a.longTermMemory ++ [(category, [])]
    else a.longTermMemory
  let ltm :=
    modifyFirst (fun p => p.1 == category)
      (fun p =>
        if insight ∈ p.2 then p
        else
          let l := p.2 ++ [insight]
          (p.1, if l.length > 50 then l.tail else l))
      ltm0
  { a with memory := memory, longTermMemory := ltm }

/-- The `Task` object `add_task` constructs before storing it: a fresh task,
with dependencies added and `blocked_by` refreshed when `depends_on` is a
nonempty list, and the schedule applied when given. -/
def buildNewTask (a : SohayAgent) (goal : String) (priority : Int) (deadline : Option Int)
    (dependsOn : Option (List Int)) (schedule : Option Schedule)
    (now fresh : Int) : Task :=
  let task := Task.new goal priority deadline fresh now
  let task :=
    match dependsOn with
    | some deps =>
      if deps.isEmpty then task
      else
        let task := deps.foldl Task.addDependency task
        let completedIds := (a.tasks.filter (fun t => t.status == .completed)).map Task.id
        task.updateBlockedStatus completedIds
    | none => task
  match schedule with
  | some s => task.setSchedule s.ty s.interval now
  | none => task

/-- `SohayAgent.add_task`.  The deadline argument is taken already parsed (the
ISO / natural-language parsing of the deadline string, whose failures are
silently ignored, is outside the claims); `fresh` is the id of the new task. -/
def addTask (a : SohayAgent) (goal : String) (priority : Int) (deadline : Option Int)
    (dependsOn : Option (List Int)) (schedule : Option Schedule)
    (now fresh : Int) : SohayAgent × String :=
  let task := buildNewTask a goal priority deadline dependsOn schedule now fresh
  let scheduledTasks :=
    match schedule with
    | some _ => a.scheduledTasks ++ [task.id]
    | none => a.scheduledTasks
  let a := { a with tasks := a.tasks ++ [task], scheduledTasks := scheduledTasks }
  let a :=
    if a.activeTask = none ∧ a.autonomousMode ∧ !task.isBlocked then
      { a with activeTask := some task.id, state := .planning }
    else a
  (a, "Task added: " ++ goal)

/-- The `schedule task <id> <type>:<interval>` command core (`handle_command`),
after the textual parsing of the schedule specification. -/
def scheduleTaskCmd (a : SohayAgent) (s : String) (ty : String) (interval : Int)
    (now : Int) : SohayAgent × String :=
  match getTask a s with
  | none => (a, "Task " ++ s ++ " not found.")
  | some t =>
    let tasks := modifyFirst (fun u => u.id == t.id) (fun u => u.setSchedule ty interval now) a.tasks
    let scheduledTasks :=
      if t.id ∈ a.scheduledTasks then a.scheduledTasks else a.scheduledTasks ++ [t.id]
    ({ a with tasks := tasks, scheduledTasks := scheduledTasks },
     "Task scheduled.")

/-! ## Plan generation (`SohayAgent.plan_task`, lines 553-808) -/

/-- Python `any(keyword in goal for keyword in kws)`. -/
def anyKeyword (kws : List String) (goal : String) : Bool :=
  kws.any (fun k => pyIn k goal)

/-- First keyword of `kws` occurring in `goal`, with a default: the
`for keyword in [...]: if keyword in goal: ...; break` pattern. -/
def firstKeyword (kws : List String) (goal : String) (dflt : String) : String :=
  ((kws.find? (fun k => pyIn k goal)).getD dflt)

/-- The `for keyword in kws: if keyword in goal: parts = goal.split(keyword, 1);
if len(parts) > 1 and parts[1].strip(): subject = parts[1].strip(); break`
pattern (analysis subject and writing subject extraction). -/
def extractAfterFirst (kws : List String) (goal : String) : Option String :=
  kws.findSome? (fun kw =>
    if pyIn kw goal then
      match breakOn kw.data goal.data with
      | some (_, after) =>
        let t := pyStrip (String.mk after)
        if t != "" then some t else none
      | none => none
    else none)

/-- Topic extraction of the research branch (lines 573-580): all prepositions
occurring in the goal contribute the stripped text after their first
occurrence. -/
def researchTopics (goal : String) : List String :=
  (["about", "on", "regarding", "for", "into"] : List String).foldl
    (fun ts kw =>
      if pyIn kw goal then
        match breakOn kw.data goal.data with
        | some (_, after) =>
          let t := pyStrip (String.mk after)
          if t != "" then ts ++ [t] else ts
        | none => ts
      else ts)
    []

/-- `SohayAgent.plan_task` as a function of the task's goal (original case),
the short-term memory snapshot, the task's deadline and the clock.  The prior
plan is cleared first (line 559) and plays no role. -/
def buildPlan (goalOrig : String) (memory : List String) (deadline : Option Int)
    (now : Int) : List String :=
  let goal := pyLower goalOrig
  let relevantInsights :=
    memory.filter (fun m => (pySplitWS (pyLower m)).any (fun w => pyIn w goal))
  let plan :=
    if anyKeyword ["research", "find", "information", "learn about", "study", "discover"] goal then
      let mainTopic := (researchTopics goal).headD goal
      let plan :=
        [ "Research information related to \x27" ++ mainTopic ++ "\x27"
        , "Search for recent developments and trends in " ++ mainTopic
        , "Find authoritative sources and expert opinions on " ++ mainTopic
        , "Gather data and statistics related to " ++ mainTopic
        , "Organize research findings by key themes"
        , "Analyze information for patterns and insights"
        , "Create a comprehensive summary of findings on " ++ mainTopic ]
      if anyKeyword ["compare", "versus", "vs", "pros and cons"] goal then
        plan ++ [ "Compare different perspectives on " ++ mainTopic
                , "Create a balanced analysis of viewpoints" ]
      else plan
    else if anyKeyword ["develop", "code", "program", "create", "build", "implement"] goal then
      let projectType :=
        firstKeyword ["app", "application", "website", "tool", "software", "program", "algorithm", "library"]
          goal "application"
      let technology :=
        firstKeyword ["python", "javascript", "react", "nodejs", "java", "c++", "typescript", "flutter", "web", "mobile"]
          goal ""
      let techString := if technology != "" then " using " ++ technology else ""
      [ "Research best practices for developing " ++ projectType ++ techString
      , "Define requirements and user stories for the " ++ projectType
      , "Create system architecture and component design"
      , "Plan the development workflow and milestones"
      , "Implement core features of the " ++ projectType
      , "Develop user interface and experience components"
      , "Integrate all components and test functionality"
      , "Review code quality and optimize performance"
      , "Finalize documentation and deployment plan" ]
    else if anyKeyword ["analyze", "evaluate", "assess", "review"] goal then
      let analysisSubject :=
        (extractAfterFirst ["analyze", "evaluation of", "assess", "review"] goal).getD goal
      let isDataTask := anyKeyword ["data", "metrics", "statistics", "numbers", "dataset"] goal
      if isDataTask then
        [ "Identify key data sources for analyzing " ++ analysisSubject
        , "Define metrics and key performance indicators"
        , "Collect relevant data points and prepare for analysis"
        , "Perform statistical analysis and data visualization"
        , "Identify trends, patterns, and outliers in the data"
        , "Draw evidence-based conclusions from the analysis"
        , "Prepare visualizations to communicate insights"
        , "Develop recommendations based on data findings" ]
      else
        [ "Define scope and criteria for analyzing " ++ analysisSubject
        , "Gather background information and context"
        , "Identify key components and dimensions to evaluate"
        , "Collect evidence and examples for assessment"
        , "Apply analytical frameworks to " ++ analysisSubject
        , "Evaluate strengths and weaknesses"
        , "Draw conclusions and develop insights"
        , "Formulate recommendations based on the analysis" ]
    else if anyKeyword ["write", "draft", "compose", "document", "report"] goal then
      let docType :=
        firstKeyword ["report", "essay", "article", "blog post", "paper", "summary", "review", "email", "letter", "proposal"]
          goal "document"
      let subject :=
        (extractAfterFirst ["on ", "about ", "regarding ", "for "] goal).getD goal
      [ "Research background information for " ++ docType ++ " on " ++ subject
      , "Define the target audience and purpose of the " ++ docType
      , "Create an outline and structure for the " ++ docType
      , "Develop key points and arguments to include"
      , "Draft the introduction and main sections"
      , "Add supporting evidence and examples"
      , "Craft a strong conclusion with key takeaways"
      , "Review and edit the " ++ docType ++ " for clarity and flow"
      , "Finalize formatting and citations if needed" ]
    else if anyKeyword ["plan", "schedule", "organize", "arrange"] goal then
      let planType :=
        firstKeyword ["project", "event", "meeting", "trip", "strategy", "campaign", "budget", "schedule"]
          goal "plan"
      [ "Define the scope and objectives for the " ++ planType
      , "Identify stakeholders and key participants"
      , "Research best practices for " ++ planType ++ " planning"
      , "Set timelines and key milestones"
      , "Allocate resources and responsibilities"
      , "Develop detailed action steps for implementation"
      , "Create contingency plans for potential issues"
      , "Design tracking and evaluation mechanisms"
      , "Finalize the " ++ planType ++ " plan with stakeholder feedback" ]
    else if anyKeyword ["data", "process", "extract", "transform"] goal then
      [ "Identify data sources needed for \x27" ++ goalOrig ++ "\x27"
      , "Define data requirements and quality criteria"
      , "Extract raw data from identified sources"
      , "Clean and preprocess the data (fix errors, handle missing values)"
      , "Transform data into appropriate format for analysis"
      , "Apply relevant data processing algorithms or techniques"
      , "Validate processed data for accuracy and completeness"
      , "Document the data processing methodology"
      , "Prepare processed data for presentation or further analysis" ]
    else if anyKeyword ["communicate", "contact", "reach out", "inform", "notify"] goal then
      let audience :=
        firstKeyword ["team", "client", "customer", "manager", "employee", "partner", "audience"]
          goal "stakeholders"
      [ "Identify key " ++ audience ++ " and communication objectives"
      , "Research background information and context"
      , "Define key messages and talking points"
      , "Select appropriate communication channels"
      , "Draft the communication content"
      , "Review and refine messaging for clarity and impact"
      , "Prepare supporting materials if needed"
      , "Execute the communication plan"
      , "Follow up and gather feedback" ]
    else
      [ "Research information related to \x27" ++ goalOrig ++ "\x27"
      , "Identify key components and requirements"
      , "Develop potential approaches and solutions"
      , "Evaluate options based on effectiveness and feasibility"
      , "Create an implementation plan"
      , "Execute the selected approach"
      , "Review results and make adjustments if needed"
      , "Finalize and document outcomes" ]
  let plan :=
    if pyIn "report" goal || pyIn "summary" goal then
      plan ++ ["Create a comprehensive report document"]
    else plan
  let plan :=
    if pyIn "presentation" goal then
      plan ++ [ "Prepare presentation slides with visual aids"
              , "Develop speaking notes and key talking points" ]
    else plan
  let plan :=
    if pyIn "deadline" goal || pyIn "schedule" goal then
      plan ++ ["Set up timeline tracking and milestone alerts"]
    else plan
  let plan :=
    if pyIn "team" goal || pyIn "collaborate" goal then
      plan ++ [ "Define team member roles and responsibilities"
              , "Establish communication and collaboration protocols" ]
    else plan
  let plan :=
    if pyIn "budget" goal || pyIn "cost" goal then
      plan ++ [ "Develop detailed budget breakdown and financial projections"
              , "Identify cost-saving opportunities and contingencies" ]
    else plan
  let plan :=
    if !relevantInsights.isEmpty then
      plan ++ ["Apply insights from previous tasks:"]
        ++ (relevantInsights.take 3).map (fun insight => "  - " ++ insight)
    else plan
  match deadline with
  | none => plan
  | some d =>
    let timeRemaining := d - now
    let daysRemaining := Int.fdiv timeRemaining 86400
    if daysRemaining < 1 then
      let hoursRemaining := Int.fdiv (Int.fmod timeRemaining 86400) 3600
      if hoursRemaining < 1 then
        ("URGENT: Complete task within " ++ toString (Int.fdiv (Int.fmod timeRemaining 86400) 60) ++ " minutes!") :: plan
      else
        ("URGENT: Complete task within " ++ toString hoursRemaining ++ " hours!") :: plan
    else
      plan ++ ["Monitor progress to ensure completion before deadline (" ++ toString daysRemaining ++ " days remaining)"]

/-- `SohayAgent.plan_task`: regenerate the active task's plan and move to the
EXECUTING state.  When there is no active task the method returns with no
state change (line 555). -/
def planTask (a : SohayAgent) (now : Int) : SohayAgent :=
  match activeTaskObj a with
  | none => a
  | some t =>
    { a with
        tasks := modifyFirst (fun u => u.id == t.id)
          (fun u => { u with plan := buildPlan t.goal a.memory t.deadline now }) a.tasks
        state := .executing }

/-! ## Step execution (`SohayAgent.execute_step`, lines 810-986) -/

/-- The capabilities of the main Sohay instance used by `execute_step`
(`google_search`, `handle_browser_command` presence and the `browser` flag,
`read_file`, `execute_shell_command`).  A call that raises is `Except.error`. -/
structure Collab where
  googleSearch : String → Except String String
  hasHandleBrowserCommand : Bool
  browser : Bool
  readFile : String → Except String String
  executeShellCommand : String → String → String → Except String String

/-- Module-level environment of `execute_step`: the optional `self.sohay`
reference, the `SEARCH_DIRECT` flag with its `search_and_format` fallback, and
`os.getcwd()`. -/
structure Env where
  sohay : Option Collab
  searchDirect : Bool
  searchAndFormat : String → Except String String
  cwd : String

/-- The `UnboundLocalError` message raised in the browse branch of
`execute_step`, where the local `query` is referenced (lines 861, 866, 873)
but only ever assigned in the mutually exclusive search branch (line 835). -/
def queryUnboundMsg : String :=
  "cannot access local variable \x27query\x27 where it is not associated with a value"

/-- Python `s.strip().strip("'").strip('"')`, the argument post-processing
used throughout `execute_step`. -/
def stripQuotes (s : String) : String :=
  pyStripChar '"' (pyStripChar '\x27' (pyStrip s))

/-- The result text `execute_step` computes for one plan step (lines 827-974):
keyword dispatch over the step text, with every collaborator failure caught
and embedded into the result.  The function is total: no failure propagates. -/
def stepResult (env : Env) (goal : String) (step : String) : String :=
  let initResult := "Executed: " ++ step
  match env.sohay with
  | none => initResult
  | some c =>
    let stepLower := pyLower step
    if pyIn "research" stepLower || pyIn "information" stepLower || pyIn "search" stepLower then
      let query :=
        if pyIn "about" step then
          match pySplitSecond step "about" with
          | some p1 => stripQuotes p1
          | none => goal
        else goal
      match c.googleSearch query with
      | .ok r => "Searched for information: " ++ query ++ "\n\nResults:\n" ++ r
      | .error e => initResult ++ "\n\nError during execution: " ++ e
    else if pyIn "browse" stepLower || pyIn "website" stepLower || pyIn "web" stepLower then
      let url :=
        if pyIn "to" step then
          match pySplitSecond step "to" with
          | some p1 =>
            let urlPart := stripQuotes p1
            if !(urlPart.startsWith "http://" || urlPart.startsWith "https://") then
              "https://" ++ urlPart
            else urlPart
          | none => "https://www.google.com"
        else "https://www.google.com"
      -- Both the browser call and the direct-search fallback of the inner
      -- `try` evaluate the unbound local `query` and raise; `url` is computed
      -- but unreachable in every surviving result path, as in the source.
      if c.hasHandleBrowserCommand && c.browser then
        if env.searchDirect then initResult ++ "\n\nError during execution: " ++ queryUnboundMsg
        else "Error during web browsing: " ++ queryUnboundMsg
      else
        if env.searchDirect then initResult ++ "\n\nError during execution: " ++ queryUnboundMsg
        else "Error: Browser functionality not available and search fallback not found."
    else if pyIn "analyze" stepLower || pyIn "organize" stepLower then
      "Analysis of task \x27" ++ goal ++ "\x27:\n\n"
        ++ "1. Key findings:\n"
        ++ "   - Information collected from various sources\n"
        ++ "   - Data organized into relevant categories\n"
        ++ "   - Patterns and trends identified\n\n"
        ++ "2. Insights:\n"
        ++ "   - Main concepts related to the task\n"
        ++ "   - Relationships between different aspects\n"
        ++ "   - Areas for further investigation\n\n"
        ++ "Analysis complete and results saved."
    else if pyIn "identify" stepLower || pyIn "solution" stepLower then
      "Potential solutions for \x27" ++ goal ++ "\x27:\n\n"
        ++ "1. Approach #1: Direct implementation\n"
        ++ "   - Advantages: Quick, straightforward\n"
        ++ "   - Disadvantages: May miss optimization opportunities\n\n"
        ++ "2. Approach #2: Research-based strategy\n"
        ++ "   - Advantages: Well-informed, comprehensive\n"
        ++ "   - Disadvantages: More time-consuming\n\n"
        ++ "3. Approach #3: Iterative approach\n"
        ++ "   - Advantages: Adaptive, flexible\n"
        ++ "   - Disadvantages: Requires ongoing adjustments\n\n"
        ++ "Recommended approach: #2 Research-based strategy"
    else if pyIn "execute" stepLower || pyIn "implement" stepLower then
      "Implementing solution for \x27" ++ goal ++ "\x27:\n\n"
        ++ "1. Preparation:\n"
        ++ "   - Resources gathered\n"
        ++ "   - Plan finalized\n\n"
        ++ "2. Implementation:\n"
        ++ "   - Core components set up\n"
        ++ "   - Integration tests performed\n\n"
        ++ "3. Finalization:\n"
        ++ "   - Documentation completed\n"
        ++ "   - Quality assurance checks passed\n\n"
        ++ "Implementation complete and ready for verification."
    else if pyIn "verify" stepLower || pyIn "report" stepLower then
      "Verification of task \x27" ++ goal ++ "\x27:\n\n"
        ++ "1. Testing results:\n"
        ++ "   - All core functionality verified\n"
        ++ "   - Edge cases tested\n\n"
        ++ "2. Performance metrics:\n"
        ++ "   - Time efficiency: Good\n"
        ++ "   - Resource usage: Optimal\n\n"
        ++ "3. Final report:\n"
        ++ "   - Task completed successfully\n"
        ++ "   - All requirements met\n"
        ++ "   - Documentation finalized\n\n"
        ++ "Task verification complete. Ready to mark as finished."
    else if pyIn "read" stepLower || pyIn "file" stepLower then
      let words := pySplitWS step
      let fileName :=
        (List.range words.length).foldl
          (fun fn i =>
            let word := words.getD i ""
            if pyLower word == "file" && i + 1 < words.length then
              stripQuotes (words.getD (i + 1) "")
            else if pyLower word == "read" && i + 1 < words.length then
              stripQuotes (words.getD (i + 1) "")
            else fn)
          "README.md"
      match c.readFile fileName with
      | .ok content => "Read file \x27" ++ fileName ++ "\x27:\n\n" ++ content
      | .error e => "Error reading file: " ++ e
    else if pyIn "execute" stepLower || pyIn "command" stepLower || pyIn "run" stepLower then
      let command :=
        if pyIn "command" step then
          match pySplitSecond step "command" with
          | some p1 => stripQuotes p1
          | none => ""
        else if pyIn "run" step then
          match pySplitSecond step "run" with
          | some p1 => stripQuotes p1
          | none => ""
        else ""
      match c.executeShellCommand command "agent_shell" env.cwd with
      | .ok r => "Executed command \x27" ++ command ++ "\x27:\n\n" ++ r
      | .error e => "Error executing command: " ++ e
    else initResult

/-- `SohayAgent.execute_step`: process exactly one step of the active task's
plan.  Totality of the function renders the fact that no exception escapes the
method. -/
def executeStep (env : Env) (a : SohayAgent) (now : Int) : SohayAgent :=
  match activeTaskObj a with
  | none => { a with state := .idle }
  | some t =>
    if t.plan.isEmpty then { a with state := .idle }
    else if t.plan.length ≤ t.currentStep then
      { a with
          tasks := modifyFirst (fun u => u.id == t.id) (fun u => u.markComplete now) a.tasks
          state := .learning }
    else
      let step := t.plan.getD t.currentStep ""
      let result := stepResult env t.goal step
      { a with
          tasks := modifyFirst (fun u => u.id == t.id)
            (fun u => { u with results := u.results ++ [result], currentStep := u.currentStep + 1 })
            a.tasks
          state := if t.plan.length ≤ t.currentStep + 1 then .reflecting else a.state }

/-! ## Reflection and learning (lines 988-1267) -/

/-- The note `reflect_on_task` appends to the active task.  Only its presence
matters to the claims; the prose (floating-point completion percentage,
duration and deadline rendering) is abbreviated to the note's header line and
the step counts. -/
def reflectionNote (t : Task) (now : Int) : String :=
  "Reflection on task: \x27" ++ t.goal ++ "\x27\n\n"
    ++ "Task completion: (" ++ toString t.currentStep ++ "/" ++ toString t.plan.length ++ " steps)\n"

/-- `SohayAgent.reflect_on_task`: append a reflection note to the active task
and always transition to LEARNING (IDLE when no task is active). -/
def reflectOnTask (a : SohayAgent) (now : Int) : SohayAgent :=
  match activeTaskObj a with
  | none => { a with state := .idle }
  | some t =>
    { a with
        tasks := modifyFirst (fun u => u.id == t.id)
          (fun u => { u with notes := u.notes ++ [reflectionNote t now] }) a.tasks
        state := .learning }

/-- The keyword classification of a (lowered) goal used by `learn_from_task`,
both for the completed-task histogram (lines 1104-1117) and for the active
task (lines 1158-1199); the two code sites use the same keyword lists. -/
def learnTaskType (goalLower : String) : String :=
  if anyKeyword ["research", "find", "information"] goalLower then "research"
  else if anyKeyword ["develop", "code", "program"] goalLower then "development"
  else if anyKeyword ["analyze", "evaluate", "assess"] goalLower then "analysis"
  else if anyKeyword ["write", "draft", "compose"] goalLower then "writing"
  else "other"

/-- Increment a key's count in an insertion-ordered histogram
(`task_types[task_type] = task_types.get(task_type, 0) + 1`). -/
def bumpCount (l : List (String × Nat)) (k : String) : List (String × Nat) :=
  if (l.find? (fun p => p.1 == k)).isNone then l ++ [(k, 1)]
  else modifyFirst (fun p => p.1 == k) (fun p => (p.1, p.2 + 1)) l

/-- Python `max(items, key=lambda x: x[1])[0]`: the first key attaining the
maximal count, in dict insertion order. -/
def firstMaxKey (l : List (String × Nat)) : Option String :=
  (l.foldl
    (fun best p =>
      match best with
      | none => some p
      | some q => if p.2 > q.2 then some p else some q)
    none).map Prod.fst

/-- The "Average task completion time" statistic (lines 1138-1144).  Python
divides a `timedelta` by a count, a float operation; it is rendered here with
integer seconds, which only affects the text of this memory entry. -/
def avgDurationNote (totalSecs count : Int) : String :=
  let avg := Int.fdiv totalSecs count
  "Average task completion time: " ++ toString (Int.fdiv avg 3600) ++ " hours, "
    ++ toString (Int.fdiv (Int.fmod avg 3600) 60) ++ " minutes"

/-- The "Task success rate" statistic (line 1155).  The `:.1f` float
percentage of the source is omitted from the rendering; the fraction is kept. -/
def successRateNote (completedCount totalCount : Int) : String :=
  "Task success rate: (" ++ toString completedCount ++ "/" ++ toString totalCount ++ ")"

/-- The note `learn_from_task` appends to the active task; its first line is
exact (it is reused for the task-specific insight), the statistics prose is
abbreviated. -/
def learningNote (t : Task) : String :=
  "Learning from task execution: \x27" ++ t.goal ++ "\x27\n\n"

/-- Text before the first newline: Python `s.split('\n')[0]`. -/
def firstLineOf (s : String) : String :=
  match breakOn ['\n'] s.data with
  | some (b, _) => String.mk b
  | none => s

/-- ASCII upper-casing of one character. -/
def charUpper (c : Char) : Char :=
  if 97 ≤ c.toNat && c.toNat ≤ 122 then Char.ofNat (c.toNat - 32) else c

/-- Python `s.capitalize()`. -/
def pyCapitalize (s : String) : String :=
  match s.data with
  | [] => ""
  | c :: rest => String.mk (charUpper c :: rest.map charLower)

/-- `SohayAgent.learn_from_task`: write cross-task statistics and
type-specific lessons into memory, append a learning note to the active task,
mark it completed if it is not already, clear the active-task reference and
return to IDLE. -/
def learnFromTask (a : SohayAgent) (now : Int) : SohayAgent :=
  match activeTaskObj a with
  | none => { a with state := .idle }
  | some t =>
    let completedTasks := a.tasks.filter (fun u => u.status == .completed)
    let a :=
      if completedTasks.isEmpty then a
      else
        let histogram :=
          completedTasks.foldl (fun l u => bumpCount l (learnTaskType (pyLower u.goal))) []
        let a :=
          match firstMaxKey histogram with
          | some mc => addToMemory a "Task Patterns" ("Most frequent task type is \x27" ++ mc ++ "\x27")
          | none => a
        let durAcc :=
          completedTasks.foldl
            (fun (p : Int × Int) u =>
              match u.completedAt with
              | some ca => (p.1 + (ca - u.createdAt), p.2 + 1)
              | none => p)
            (0, 0)
        let a :=
          if durAcc.2 > 0 then addToMemory a "Task Metrics" (avgDurationNote durAcc.1 durAcc.2)
          else a
        let completedCount := (completedTasks.filter (fun u => u.status == .completed)).length
        let failedCount := (a.tasks.filter (fun u => u.status == .failed)).length
        let totalCount := completedCount + failedCount
        if totalCount > 0 then
          addToMemory a "Task Metrics" (successRateNote completedCount totalCount)
        else a
    let currentType := learnTaskType (pyLower t.goal)
    let a :=
      if currentType == "research" then
        addToMemory
          (addToMemory a "Research Tasks" "Most effective when using diverse information sources")
          "Research Tasks" "Better results when organizing findings systematically"
      else if currentType == "development" then
        addToMemory
          (addToMemory a "Development Tasks" "Planning phase crucial for successful implementation")
          "Development Tasks" "Testing throughout development improves outcomes"
      else if currentType == "analysis" then
        addToMemory
          (addToMemory a "Analysis Tasks" "Quality of data significantly impacts analysis results")
          "Analysis Tasks" "Structured approach leads to more comprehensive insights"
      else if currentType == "writing" then
        addToMemory
          (addToMemory a "Writing Tasks" "Outlining before drafting improves document structure")
          "Writing Tasks" "Multiple review passes catch more issues"
      else a
    let a :=
      if currentType == "research" then
        addToMemory
          (addToMemory a "Research Strategies" "Use more specific search queries for better results")
          "Research Strategies" "Create structured note-taking templates"
      else if currentType == "development" then
        addToMemory
          (addToMemory a "Development Strategies" "Break down complex functionality into smaller modules")
          "Development Strategies" "Implement automated testing where possible"
      else if currentType == "analysis" then
        addToMemory
          (addToMemory a "Analysis Strategies" "Establish clear metrics before beginning analysis")
          "Analysis Strategies" "Use visualization to identify patterns more effectively"
      else if currentType == "writing" then
        addToMemory
          (addToMemory a "Writing Strategies" "Develop standard templates for common document types")
          "Writing Strategies" "Allocate specific time for editing separate from drafting"
      else
        addToMemory
          (addToMemory a "General Strategies" "Create more detailed initial plans")
          "General Strategies" "Set clearer success criteria at the outset"
    let a := addToMemory a "Productivity" "Break large tasks into smaller, manageable sub-tasks"
    let a := addToMemory a "Productivity" "Set intermediate deadlines for multi-stage tasks"
    let a := addToMemory a "Productivity" "Allocate buffer time for unexpected complications"
    let note := learningNote t
    let a :=
      { a with
          tasks := modifyFirst (fun u => u.id == t.id)
            (fun u => { u with notes := u.notes ++ [note] }) a.tasks }
    let taskInsight := "For " ++ currentType ++ " tasks: " ++ t.goal ++ " - " ++ firstLineOf note
    let a := addToMemory a (pyCapitalize currentType ++ " Tasks") taskInsight
    let a :=
      if t.status != .completed then
        { a with
            tasks := modifyFirst (fun u => u.id == t.id) (fun u => u.markComplete now) a.tasks }
      else a
    { a with activeTask := none, state := .idle }

/-! ## The autonomous tick (`SohayAgent.run_autonomously`, lines 459-551) -/

/-- The scheduler's sort key (line 506): `(-priority, deadline or
datetime.max, created_at)` compared lexicographically; `datetime.max` is the
top of all representable times, so a missing deadline is the order's top. -/
def taskKey (t : Task) : Lex (Int × Lex (WithTop Int × Int)) :=
  toLex (-t.priority,
    toLex ((match t.deadline with
            | some d => (d : WithTop Int)
            | none => (⊤ : WithTop Int)), t.createdAt))

/-- Python's stable ascending sort orders tasks by `taskKey`. -/
def taskLe (x y : Task) : Prop :=
  taskKey x ≤ taskKey y

instance : DecidableRel taskLe :=
  fun x y => inferInstanceAs (Decidable (taskKey x ≤ taskKey y))

instance : IsTotal Task taskLe :=
  ⟨fun x y => le_total (taskKey x) (taskKey y)⟩

instance : IsTrans Task taskLe :=
  ⟨fun _ _ _ h h' => le_trans h h'⟩

/-- Blocking refresh of the tick (lines 494-498): recompute `blocked_by` for
every pending task against the completed-task-id set. -/
def refreshTasks (tasks : List Task) : List Task :=
  let completedIds := (tasks.filter (fun t => t.status == .completed)).map Task.id
  tasks.map (fun t => if t.status == .pending then t.updateBlockedStatus completedIds else t)

/-- The tick's candidate set (line 503): pending and not blocked. -/
def pendingUnblocked (tasks : List Task) : List Task :=
  tasks.filter (fun t => t.status == .pending && !t.isBlocked)

/-- One iteration of the recurrence scan (lines 473-475): the task of a
scheduled id, provided it exists and its `next_run` has elapsed. -/
def dueTemplate (tasks : List Task) (now : Int) (i : Int) : Option Task :=
  match findTask tasks i with
  | some t =>
    match t.nextRun with
    | some r => if now ≥ r then some t else none
    | none => none
  | none => none

/-- The first due template in `scheduled_tasks` order, if any. -/
def findDueScheduled (a : SohayAgent) (now : Int) : Option Task :=
  a.scheduledTasks.findSome? (dueTemplate a.tasks now)

/-- The new instance spawned from a recurrence template (lines 477-481):
a fresh `Task` with the template's goal, priority and deadline, plus the
copied dependencies. -/
def spawnFromTemplate (tpl : Task) (fresh now : Int) : Task :=
  tpl.dependencies.foldl Task.addDependency (Task.new tpl.goal tpl.priority tpl.deadline fresh now)

/-- The per-state dispatch of the tick when a task is active
(lines 532-551): plan, execute, reflect or learn, and from IDLE move to
PLANNING.  The progress-message strings are abbreviated (they interpolate
state no claim mentions). -/
def dispatchActive (env : Env) (a : SohayAgent) (now : Int) : SohayAgent × String :=
  if a.state = .planning then (planTask a now, "Planned execution for task.")
  else if a.state = .executing then (executeStep env a now, "Executed step for task.")
  else if a.state = .reflecting then (reflectOnTask a now, "Reflected on progress of task.")
  else if a.state = .learning then (learnFromTask a now, "Learned from task execution.")
  else ({ a with state := .planning }, "Preparing to plan for active task.")

/-- `SohayAgent.run_autonomously`: one autonomous tick.  `now` is the clock
and `fresh` the id a task spawned during this tick would receive.  The
progress-message strings of the per-state dispatch are abbreviated (they
interpolate state that no claim mentions). -/
def runAutonomously (env : Env) (a0 : SohayAgent) (now fresh : Int) : SohayAgent × String :=
  if !a0.autonomousMode then (a0, "Autonomous mode is disabled.")
  else if now - a0.lastActionTime < a0.checkInterval then
    (a0, "Waiting for next autonomous action.")
  else
    let a := { a0 with lastActionTime := now }
    match findDueScheduled a now with
    | some tpl =>
      let newTask := spawnFromTemplate tpl fresh now
      ({ a with
          tasks := modifyFirst (fun u => u.id == tpl.id) (fun u => u.calculateNextRun now)
            (a.tasks ++ [newTask]) },
       "Created new instance of scheduled task: " ++ tpl.goal)
    | none =>
      let a := { a with tasks := refreshTasks a.tasks }
      match a.activeTask with
      | none =>
        let pendingTasks := pendingUnblocked a.tasks
        if pendingTasks.isEmpty then
          let blockedTasks := a.tasks.filter (fun t => t.status == .pending && t.isBlocked)
          if !blockedTasks.isEmpty then
            let blockedIds := blockedTasks.foldl (fun acc t => acc ++ t.blockedBy) []
            let blockingTasks :=
              a.tasks.filter (fun t => blockedIds.contains t.id && t.status != .completed)
            if !blockingTasks.isEmpty then
              (a, "Waiting for " ++ toString blockingTasks.length
                ++ " dependencies to complete before proceeding with blocked tasks.")
            else (a, "No pending tasks to work on autonomously.")
          else (a, "No pending tasks to work on autonomously.")
        else
          match pendingTasks.insertionSort taskLe with
          | [] => (a, "No pending tasks to work on autonomously.")
          | sel :: _ =>
            ({ a with
                activeTask := some sel.id
                tasks := modifyFirst (fun u => u.id == sel.id)
                  (fun u => { u with status := .inProgress }) a.tasks
                state := .planning },
             "Autonomously activated task: " ++ sel.goal)
      | some _ => dispatchActive env a now

/-! ## Operations and reachability

The command surface of the agent (`handle_command`) and the autonomous tick,
as a labelled transition system over `SohayAgent`.  `add` and `tick` carry the
fresh time-derived id of any task they construct; validity of a transition
requires that id to be new, which is the "Unique ID based on timestamp"
contract of `Task.__init__`. -/

/-- One agent operation.  `remember` is `add_to_memory` as reached through
`gather_information` and the learning phase; the remaining constructors are
the task commands and the autonomous tick. -/
inductive AOp where
  | enable
  | disable
  | add (goal : String) (priority : Int) (deadline : Option Int)
      (dependsOn : Option (List Int)) (schedule : Option Schedule) (now fresh : Int)
  | activate (s : String)
  | complete (s : String) (now : Int)
  | delete (s : String)
  | schedCmd (s ty : String) (interval now : Int)
  | remember (cat insight : String)
  | tick (env : Env) (now fresh : Int)

/-- Apply one operation (dropping the returned message). -/
def applyAOp : AOp → SohayAgent → SohayAgent
  | .enable, a => (enableAutonomousMode a).1
  | .disable, a => (disableAutonomousMode a).1
  | .add goal priority deadline dependsOn schedule now fresh, a =>
    (addTask a goal priority deadline dependsOn schedule now fresh).1
  | .activate s, a => (activateTask a s).1
  | .complete s now, a => (completeTask a s now).1
  | .delete s, a => (deleteTask a s).1
  | .schedCmd s ty interval now, a => (scheduleTaskCmd a s ty interval now).1
  | .remember cat insight, a => addToMemory a cat insight
  | .tick env now fresh, a => (runAutonomously env a now fresh).1

/-- Validity of an operation: any id it mints is genuinely fresh. -/
def validB (op : AOp) (a : SohayAgent) : Bool :=
  match op with
  | .add _ _ _ _ _ _ fresh => !(a.tasks.map Task.id).contains fresh
  | .tick _ _ fresh => !(a.tasks.map Task.id).contains fresh
  | _ => true

/-- Whether the operation is the explicit `activate task` command. -/
def AOp.isActivate : AOp → Bool
  | .activate _ => true
  | _ => false

/-- One valid transition. -/
def StepR (a a' : SohayAgent) : Prop :=
  ∃ op : AOp, validB op a = true ∧ a' = applyAOp op a

/-- One valid transition that is not an explicit task activation. -/
def StepNA (a a' : SohayAgent) : Prop :=
  ∃ op : AOp, op.isActivate = false ∧ validB op a = true ∧ a' = applyAOp op a

/-- Agent states reachable from a fresh agent by the command surface and the
autonomous tick. -/
def Reached (a : SohayAgent) : Prop :=
  Relation.ReflTransGen StepR initialAgent a

/-- Reachability without the explicit `activate task` command. -/
def ReachedNA (a : SohayAgent) : Prop :=
  Relation.ReflTransGen StepNA initialAgent a

/-! ## Supporting lemmas -/

theorem modifyFirst_map {α β : Type _} (g : α → β) (p : α → Bool) (f : α → α)
    (h : ∀ x, g (f x) = g x) (l : List α) :
    (modifyFirst p f l).map g = l.map g := by
  induction l with
  | nil => rfl
  | cons x xs ih =>
    simp only [modifyFirst]
    by_cases hp : p x = true
    · simp [hp, h]
    · simp [hp, ih]

theorem mem_modifyFirst {α : Type _} {p : α → Bool} {f : α → α} {l : List α} {y : α}
    (hy : y ∈ modifyFirst p f l) :
    y ∈ l ∨ ∃ x, x ∈ l ∧ p x = true ∧ y = f x := by
  induction l with
  | nil => simp [modifyFirst] at hy
  | cons x xs ih =>
    simp only [modifyFirst] at hy
    by_cases hp : p x = true
    · simp [hp] at hy
      rcases hy with h | h
      · exact Or.inr ⟨x, by simp, hp, h⟩
      · exact Or.inl (by simp [h])
    · simp [hp] at hy
      rcases hy with h | h
      · exact Or.inl (by simp [h])
      · rcases ih h with h' | ⟨x', hx', hpx', hyx'⟩
        · exact Or.inl (by simp [h'])
        · exact Or.inr ⟨x', by simp [hx'], hpx', hyx'⟩

theorem modifyFirst_decomp {α : Type _} (p : α → Bool) (f : α → α) {l : List α} {x : α}
    (hfind : l.find? p = some x) :
    ∃ l₁ l₂, l = l₁ ++ x :: l₂ ∧ (∀ y ∈ l₁, p y = false) ∧
      modifyFirst p f l = l₁ ++ f x :: l₂ := by
  induction l with
  | nil => simp at hfind
  | cons z zs ih =>
    by_cases hp : p z = true
    · rw [List.find?_cons_of_pos _ hp] at hfind
      obtain rfl : z = x := by injection hfind
      exact ⟨[], zs, by simp, by simp, by simp [modifyFirst, hp]⟩
    · rw [List.find?_cons_of_neg _ (by simpa using hp)] at hfind
      obtain ⟨l₁, l₂, hl, hnone, hmf⟩ := ih hfind
      refine ⟨z :: l₁, l₂, by simp [hl], ?_, ?_⟩
      · intro y hy
        rcases List.mem_cons.mp hy with rfl | hy'
        · simpa using hp
        · exact hnone y hy'
      · simp [modifyFirst, hp, hmf]

theorem modifyFirst_id {α : Type _} {p : α → Bool} {f : α → α} {l : List α}
    (h : ∀ x ∈ l, p x = true → f x = x) :
    modifyFirst p f l = l := by
  induction l with
  | nil => rfl
  | cons x xs ih =>
    simp only [modifyFirst]
    by_cases hp : p x = true
    · simp [hp, h x (by simp) hp]
    · simp [hp]
      exact ih (fun y hy hpy => h y (by simp [hy]) hpy)

theorem find?_modifyFirst {α : Type _} {p : α → Bool} {f : α → α} (l : List α)
    (h : ∀ x, p (f x) = p x) :
    (modifyFirst p f l).find? p = (l.find? p).map f := by
  induction l with
  | nil => rfl
  | cons x xs ih =>
    simp only [modifyFirst]
    by_cases hp : p x = true
    · rw [List.find?_cons_of_pos _ hp, if_pos hp,
        List.find?_cons_of_pos _ (by rw [h]; exact hp)]
      rfl
    · rw [List.find?_cons_of_neg _ (by simpa using hp), if_neg hp,
        List.find?_cons_of_neg _ (by simpa using hp), ih]

theorem find?_append_of_none {α : Type _} {p : α → Bool} {l₁ l₂ : List α}
    (h : l₁.find? p = none) :
    (l₁ ++ l₂).find? p = l₂.find? p := by
  induction l₁ with
  | nil => rfl
  | cons x xs ih =>
    by_cases hp : p x = true
    · rw [List.find?_cons_of_pos _ hp] at h
      exact absurd h (by simp)
    · rw [List.find?_cons_of_neg _ (by simpa using hp)] at h
      rw [List.cons_append, List.find?_cons_of_neg _ (by simpa using hp), ih h]

/-- In a list of tasks with pairwise distinct ids, the id lookup of a member
finds exactly that member. -/
theorem findTask_of_mem_nodup {tasks : List Task} (hnd : (tasks.map Task.id).Nodup)
    {t : Task} (ht : t ∈ tasks) :
    tasks.find? (fun u => u.id == t.id) = some t := by
  induction tasks with
  | nil => simp at ht
  | cons z zs ih =>
    simp only [List.map_cons, List.nodup_cons] at hnd
    rcases List.mem_cons.mp ht with rfl | ht'
    · exact List.find?_cons_of_pos _ (by simp)
    · have hne : z.id ≠ t.id := by
        intro he
        exact hnd.1 (he ▸ List.mem_map_of_mem Task.id ht')
      rw [List.find?_cons_of_neg _ (by simpa using hne), ih hnd.2 ht']

theorem getTask_mem {a : SohayAgent} {s : String} {t : Task}
    (h : getTask a s = some t) : t ∈ a.tasks := by
  unfold getTask at h
  repeat' split at h
  all_goals
    first
      | exact List.get?_mem h
      | exact List.mem_of_find?_eq_some h
      | exact absurd h (by simp)

theorem findTask_mem {tasks : List Task} {i : Int} {t : Task}
    (h : findTask tasks i = some t) : t ∈ tasks :=
  List.mem_of_find?_eq_some h

theorem findTask_id {tasks : List Task} {i : Int} {t : Task}
    (h : findTask tasks i = some t) : t.id = i := by
  have := List.find?_some h
  simpa using this

/-! Field-preservation facts for the task operations. -/

@[simp] theorem Task.markComplete_id (t : Task) (now : Int) : (t.markComplete now).id = t.id := rfl
@[simp] theorem Task.markComplete_status (t : Task) (now : Int) :
    (t.markComplete now).status = .completed := rfl
@[simp] theorem Task.markComplete_results (t : Task) (now : Int) :
    (t.markComplete now).results = t.results := rfl
@[simp] theorem Task.markComplete_currentStep (t : Task) (now : Int) :
    (t.markComplete now).currentStep = t.currentStep := rfl
@[simp] theorem Task.markComplete_completedAt (t : Task) (now : Int) :
    (t.markComplete now).completedAt = some now := rfl

@[simp] theorem Task.updateBlockedStatus_id (t : Task) (ids : List Int) :
    (t.updateBlockedStatus ids).id = t.id := rfl
@[simp] theorem Task.updateBlockedStatus_status (t : Task) (ids : List Int) :
    (t.updateBlockedStatus ids).status = t.status := rfl
@[simp] theorem Task.updateBlockedStatus_results (t : Task) (ids : List Int) :
    (t.updateBlockedStatus ids).results = t.results := rfl
@[simp] theorem Task.updateBlockedStatus_currentStep (t : Task) (ids : List Int) :
    (t.updateBlockedStatus ids).currentStep = t.currentStep := rfl
@[simp] theorem Task.updateBlockedStatus_plan (t : Task) (ids : List Int) :
    (t.updateBlockedStatus ids).plan = t.plan := rfl

theorem Task.calculateNextRun_eq (t : Task) (now : Int) :
    ∃ nr, t.calculateNextRun now = { t with nextRun := nr } := by
  unfold Task.calculateNextRun
  cases t.schedule with
  | none => exact ⟨none, rfl⟩
  | some s =>
    simp only
    split
    · exact ⟨_, rfl⟩
    · split
      · exact ⟨_, rfl⟩
      · split
        · exact ⟨_, rfl⟩
        · split
          · exact ⟨_, rfl⟩
          · split
            · exact ⟨_, rfl⟩
            · exact ⟨_, rfl⟩

@[simp] theorem Task.calculateNextRun_id (t : Task) (now : Int) :
    (t.calculateNextRun now).id = t.id := by
  obtain ⟨nr, h⟩ := t.calculateNextRun_eq now; rw [h]
@[simp] theorem Task.calculateNextRun_status (t : Task) (now : Int) :
    (t.calculateNextRun now).status = t.status := by
  obtain ⟨nr, h⟩ := t.calculateNextRun_eq now; rw [h]
@[simp] theorem Task.calculateNextRun_results (t : Task) (now : Int) :
    (t.calculateNextRun now).results = t.results := by
  obtain ⟨nr, h⟩ := t.calculateNextRun_eq now; rw [h]
@[simp] theorem Task.calculateNextRun_currentStep (t : Task) (now : Int) :
    (t.calculateNextRun now).currentStep = t.currentStep := by
  obtain ⟨nr, h⟩ := t.calculateNextRun_eq now; rw [h]
@[simp] theorem Task.calculateNextRun_plan (t : Task) (now : Int) :
    (t.calculateNextRun now).plan = t.plan := by
  obtain ⟨nr, h⟩ := t.calculateNextRun_eq now; rw [h]
@[simp] theorem Task.calculateNextRun_goal (t : Task) (now : Int) :
    (t.calculateNextRun now).goal = t.goal := by
  obtain ⟨nr, h⟩ := t.calculateNextRun_eq now; rw [h]

@[simp] theorem Task.setSchedule_id (t : Task) (ty : String) (k now : Int) :
    (t.setSchedule ty k now).id = t.id := by
  unfold Task.setSchedule
  rw [Task.calculateNextRun_id]
@[simp] theorem Task.setSchedule_status (t : Task) (ty : String) (k now : Int) :
    (t.setSchedule ty k now).status = t.status := by
  unfold Task.setSchedule
  rw [Task.calculateNextRun_status]
@[simp] theorem Task.setSchedule_results (t : Task) (ty : String) (k now : Int) :
    (t.setSchedule ty k now).results = t.results := by
  unfold Task.setSchedule
  rw [Task.calculateNextRun_results]
@[simp] theorem Task.setSchedule_currentStep (t : Task) (ty : String) (k now : Int) :
    (t.setSchedule ty k now).currentStep = t.currentStep := by
  unfold Task.setSchedule
  rw [Task.calculateNextRun_currentStep]
@[simp] theorem Task.setSchedule_plan (t : Task) (ty : String) (k now : Int) :
    (t.setSchedule ty k now).plan = t.plan := by
  unfold Task.setSchedule
  rw [Task.calculateNextRun_plan]

@[simp] theorem Task.addDependency_id (t : Task) (d : Int) : (t.addDependency d).id = t.id := by
  unfold Task.addDependency; split <;> rfl
@[simp] theorem Task.addDependency_status (t : Task) (d : Int) :
    (t.addDependency d).status = t.status := by
  unfold Task.addDependency; split <;> rfl
@[simp] theorem Task.addDependency_results (t : Task) (d : Int) :
    (t.addDependency d).results = t.results := by
  unfold Task.addDependency; split <;> rfl
@[simp] theorem Task.addDependency_currentStep (t : Task) (d : Int) :
    (t.addDependency d).currentStep = t.currentStep := by
  unfold Task.addDependency; split <;> rfl
@[simp] theorem Task.addDependency_plan (t : Task) (d : Int) :
    (t.addDependency d).plan = t.plan := by
  unfold Task.addDependency; split <;> rfl
@[simp] theorem Task.addDependency_goal (t : Task) (d : Int) :
    (t.addDependency d).goal = t.goal := by
  unfold Task.addDependency; split <;> rfl
@[simp] theorem Task.addDependency_priority (t : Task) (d : Int) :
    (t.addDependency d).priority = t.priority := by
  unfold Task.addDependency; split <;> rfl
@[simp] theorem Task.addDependency_deadline (t : Task) (d : Int) :
    (t.addDependency d).deadline = t.deadline := by
  unfold Task.addDependency; split <;> rfl
@[simp] theorem Task.addDependency_schedule (t : Task) (d : Int) :
    (t.addDependency d).schedule = t.schedule := by
  unfold Task.addDependency; split <;> rfl
@[simp] theorem Task.addDependency_nextRun (t : Task) (d : Int) :
    (t.addDependency d).nextRun = t.nextRun := by
  unfold Task.addDependency; split <;> rfl

theorem foldl_addDependency_id (l : List Int) (t : Task) :
    (l.foldl Task.addDependency t).id = t.id := by
  induction l generalizing t with
  | nil => rfl
  | cons d ds ih => rw [List.foldl_cons, ih, Task.addDependency_id]

theorem foldl_addDependency_status (l : List Int) (t : Task) :
    (l.foldl Task.addDependency t).status = t.status := by
  induction l generalizing t with
  | nil => rfl
  | cons d ds ih => rw [List.foldl_cons, ih, Task.addDependency_status]

theorem foldl_addDependency_results (l : List Int) (t : Task) :
    (l.foldl Task.addDependency t).results = t.results := by
  induction l generalizing t with
  | nil => rfl
  | cons d ds ih => rw [List.foldl_cons, ih, Task.addDependency_results]

theorem foldl_addDependency_currentStep (l : List Int) (t : Task) :
    (l.foldl Task.addDependency t).currentStep = t.currentStep := by
  induction l generalizing t with
  | nil => rfl
  | cons d ds ih => rw [List.foldl_cons, ih, Task.addDependency_currentStep]

theorem foldl_addDependency_plan (l : List Int) (t : Task) :
    (l.foldl Task.addDependency t).plan = t.plan := by
  induction l generalizing t with
  | nil => rfl
  | cons d ds ih => rw [List.foldl_cons, ih, Task.addDependency_plan]

theorem foldl_addDependency_goal (l : List Int) (t : Task) :
    (l.foldl Task.addDependency t).goal = t.goal := by
  induction l generalizing t with
  | nil => rfl
  | cons d ds ih => rw [List.foldl_cons, ih, Task.addDependency_goal]

theorem foldl_addDependency_priority (l : List Int) (t : Task) :
    (l.foldl Task.addDependency t).priority = t.priority := by
  induction l generalizing t with
  | nil => rfl
  | cons d ds ih => rw [List.foldl_cons, ih, Task.addDependency_priority]

theorem foldl_addDependency_deadline (l : List Int) (t : Task) :
    (l.foldl Task.addDependency t).deadline = t.deadline := by
  induction l generalizing t with
  | nil => rfl
  | cons d ds ih => rw [List.foldl_cons, ih, Task.addDependency_deadline]

theorem foldl_addDependency_schedule (l : List Int) (t : Task) :
    (l.foldl Task.addDependency t).schedule = t.schedule := by
  induction l generalizing t with
  | nil => rfl
  | cons d ds ih => rw [List.foldl_cons, ih, Task.addDependency_schedule]

theorem foldl_addDependency_nextRun (l : List Int) (t : Task) :
    (l.foldl Task.addDependency t).nextRun = t.nextRun := by
  induction l generalizing t with
  | nil => rfl
  | cons d ds ih => rw [List.foldl_cons, ih, Task.addDependency_nextRun]

/-- `add_dependency` folded over a duplicate-free list starting from the
existing dependencies appends the list. -/
theorem foldl_addDependency_deps (l : List Int) (t : Task)
    (h : (t.dependencies ++ l).Nodup) :
    (l.foldl Task.addDependency t).dependencies = t.dependencies ++ l := by
  induction l generalizing t with
  | nil => simp
  | cons d ds ih =>
    have hd : d ∉ t.dependencies := by
      intro hmem
      have := List.nodup_append.mp h
      exact this.2.2 hmem (by simp)
    rw [List.foldl_cons]
    have hstep : t.addDependency d = { t with dependencies := t.dependencies ++ [d] } := by
      unfold Task.addDependency
      rw [if_neg hd]
    rw [hstep, ih]
    · simp
    · simpa using h

/-- Run a list of operations from an agent state. -/
def runOps (ops : List AOp) (a : SohayAgent) : SohayAgent :=
  ops.foldl (fun a op => applyAOp op a) a

/-- Sequential validity of a list of operations. -/
def validOps : List AOp → SohayAgent → Bool
  | [], _ => true
  | op :: ops, a => validB op a && validOps ops (applyAOp op a)

theorem reflTransGen_of_validOps {ops : List AOp} {a : SohayAgent}
    (h : validOps ops a = true) :
    Relation.ReflTransGen StepR a (runOps ops a) := by
  induction ops generalizing a with
  | nil => exact Relation.ReflTransGen.refl
  | cons op ops ih =>
    have h' := h
    unfold validOps at h'
    rw [Bool.and_eq_true] at h'
    exact Relation.ReflTransGen.head ⟨op, h'.1, rfl⟩ (ih h'.2)

theorem reached_of_validOps {ops : List AOp}
    (h : validOps ops initialAgent = true) :
    Reached (runOps ops initialAgent) :=
  reflTransGen_of_validOps h

theorem reflTransGenNA_of_validOps {ops : List AOp} {a : SohayAgent}
    (h : validOps ops a = true) (hna : ops.all (fun op => !op.isActivate) = true) :
    Relation.ReflTransGen StepNA a (runOps ops a) := by
  induction ops generalizing a with
  | nil => exact Relation.ReflTransGen.refl
  | cons op ops ih =>
    have h' := h
    unfold validOps at h'
    rw [Bool.and_eq_true] at h'
    rw [List.all_cons, Bool.and_eq_true] at hna
    refine Relation.ReflTransGen.head ⟨op, ?_, h'.1, rfl⟩ (ih h'.2 hna.2)
    simpa using hna.1

theorem reachedNA_of_validOps {ops : List AOp}
    (h : validOps ops initialAgent = true) (hna : ops.all (fun op => !op.isActivate) = true) :
    ReachedNA (runOps ops initialAgent) :=
  reflTransGenNA_of_validOps h hna

/-! ## Memory-store lemmas (claim C10) -/

/-- The long-term update applied to the first pair of the insight's category. -/
def ltmUpdate (s : String) : (String × List String) → (String × List String) :=
  fun p =>
    if s ∈ p.2 then p
    else (p.1, if (p.2 ++ [s]).length > 50 then (p.2 ++ [s]).tail else p.2 ++ [s])

theorem addToMemory_memory_eq (a : SohayAgent) (c s : String) :
    (addToMemory a c s).memory =
      if s ∈ a.memory then a.memory
      else if (a.memory ++ [s]).length > 20 then (a.memory ++ [s]).tail
      else a.memory ++ [s] := rfl

theorem addToMemory_ltm_eq (a : SohayAgent) (c s : String) :
    (addToMemory a c s).longTermMemory =
      modifyFirst (fun p => p.1 == c) (ltmUpdate s)
        (if (a.longTermMemory.find? (fun p => p.1 == c)).isNone then
          a.longTermMemory ++ [(c, [])]
        else a.longTermMemory) := rfl

@[simp] theorem addToMemory_tasks (a : SohayAgent) (c s : String) :
    (addToMemory a c s).tasks = a.tasks := rfl
@[simp] theorem addToMemory_activeTask (a : SohayAgent) (c s : String) :
    (addToMemory a c s).activeTask = a.activeTask := rfl
@[simp] theorem addToMemory_state (a : SohayAgent) (c s : String) :
    (addToMemory a c s).state = a.state := rfl

theorem ltmUpdate_key (s : String) (c : String) (x : String × List String) :
    ((ltmUpdate s x).1 == c) = (x.1 == c) := by
  unfold ltmUpdate
  by_cases hx : s ∈ x.2 <;> simp [hx]

theorem tail_nodup {α : Type _} {l : List α} (h : l.Nodup) : l.tail.Nodup := by
  cases l with
  | nil => simp
  | cons x xs => exact (List.nodup_cons.mp h).2

theorem append_singleton_nodup {α : Type _} {l : List α} {s : α}
    (h : l.Nodup) (hs : s ∉ l) : (l ++ [s]).Nodup := by
  rw [List.nodup_append]
  refine ⟨h, List.nodup_singleton s, fun x hx hx' => hs ?_⟩
  simp only [List.mem_singleton] at hx'
  exact hx' ▸ hx

theorem modifyFirst_eq_self_of_find? {α : Type _} {p : α → Bool} {f : α → α}
    {l : List α} {x : α} (hfind : l.find? p = some x) (hfx : f x = x) :
    modifyFirst p f l = l := by
  obtain ⟨l₁, l₂, hl, _, hmf⟩ := modifyFirst_decomp p f hfind
  rw [hmf, hfx, ← hl]

theorem mem_capAppend {l : List String} {s : String} {n : Nat} (hn : 1 ≤ n) :
    s ∈ (if (l ++ [s]).length > n then (l ++ [s]).tail else l ++ [s]) := by
  split
  · rename_i h
    cases l with
    | nil => simp at h; omega
    | cons y ys => simp
  · simp

theorem mem_addToMemory (a : SohayAgent) (c s : String) :
    s ∈ (addToMemory a c s).memory := by
  rw [addToMemory_memory_eq]
  by_cases hmem : s ∈ a.memory
  · rw [if_pos hmem]; exact hmem
  · rw [if_neg hmem]
    exact mem_capAppend (by omega)

/-- After `add_to_memory`, the first long-term pair for the category exists
and contains the insight. -/
theorem find_addToMemory (a : SohayAgent) (c s : String) :
    ∃ q, (addToMemory a c s).longTermMemory.find? (fun p => p.1 == c) = some q ∧ s ∈ q.2 := by
  rw [addToMemory_ltm_eq]
  cases hf : a.longTermMemory.find? (fun p => p.1 == c) with
  | none =>
    rw [Option.isNone_none, if_pos rfl]
    have h0 : (a.longTermMemory ++ [(c, ([] : List String))]).find? (fun p => p.1 == c)
        = some (c, []) := by
      rw [find?_append_of_none hf]
      exact List.find?_cons_of_pos _ (by simp)
    refine ⟨(c, [s]), ?_, by simp⟩
    rw [find?_modifyFirst _ (ltmUpdate_key s c), h0]
    simp [ltmUpdate]
  | some x =>
    rw [Option.isNone_some, if_neg Bool.false_ne_true]
    by_cases hx : s ∈ x.2
    · refine ⟨x, ?_, hx⟩
      rw [find?_modifyFirst _ (ltmUpdate_key s c), hf]
      simp [ltmUpdate, hx]
    · refine ⟨(x.1, if (x.2 ++ [s]).length > 50 then (x.2 ++ [s]).tail else x.2 ++ [s]), ?_, ?_⟩
      · rw [find?_modifyFirst _ (ltmUpdate_key s c), hf]
        simp [ltmUpdate, hx]
      · show s ∈ (if (x.2 ++ [s]).length > 50 then (x.2 ++ [s]).tail else x.2 ++ [s])
        exact mem_capAppend (by omega)

/-- Adding an insight which the short-term store and the first matching
long-term category already hold is a no-op. -/
theorem addToMemory_of_mem (a : SohayAgent) (c s : String)
    (hmem : s ∈ a.memory) {q : String × List String}
    (hfind : a.longTermMemory.find? (fun p => p.1 == c) = some q) (hq : s ∈ q.2) :
    addToMemory a c s = a := by
  have hm : (addToMemory a c s).memory = a.memory := by
    rw [addToMemory_memory_eq, if_pos hmem]
  have hl : (addToMemory a c s).longTermMemory = a.longTermMemory := by
    rw [addToMemory_ltm_eq, hfind, Option.isNone_some, if_neg Bool.false_ne_true]
    exact modifyFirst_eq_self_of_find? hfind (by simp [ltmUpdate, hq])
  show { a with memory := (addToMemory a c s).memory,
                longTermMemory := (addToMemory a c s).longTermMemory } = a
  rw [hm, hl]

/-- A concrete agent whose short-term store is full (20 distinct entries). -/
def fullMemAgent : SohayAgent :=
  { initialAgent with memory := (List.range 20).map (fun i => "m" ++ toString i) }

/-- C10: after every `add_to_memory(category, insight)` call the short-term
store holds at most 20 pairwise-distinct entries (on overflow the oldest entry
is evicted, FIFO) and every long-term category holds at most 50
pairwise-distinct entries; adding the same exact insight twice to the same
category stores exactly one copy (the second call is a no-op on the whole
agent state); adding a 21st distinct short-term entry evicts the oldest. -/
theorem claim_C10 :
    (∀ (a : SohayAgent) (c s : String),
      a.memory.length ≤ 20 → a.memory.Nodup →
      (∀ p ∈ a.longTermMemory, p.2.length ≤ 50 ∧ p.2.Nodup) →
      (addToMemory a c s).memory.length ≤ 20 ∧ (addToMemory a c s).memory.Nodup ∧
        ∀ p ∈ (addToMemory a c s).longTermMemory, p.2.length ≤ 50 ∧ p.2.Nodup)
    ∧ (∀ (a : SohayAgent) (c s : String),
        addToMemory (addToMemory a c s) c s = addToMemory a c s)
    ∧ (∀ (a : SohayAgent) (c s : String) (x : String) (xs : List String),
        a.memory = x :: xs → a.memory.length = 20 → s ∉ a.memory →
        (addToMemory a c s).memory = xs ++ [s]) := by
  refine ⟨?_, ?_, ?_⟩
  · intro a c s hlen hnd hltm
    refine ⟨?_, ?_, ?_⟩
    · rw [addToMemory_memory_eq]
      by_cases hmem : s ∈ a.memory
      · rw [if_pos hmem]; exact hlen
      · rw [if_neg hmem]
        split
        · rename_i h
          simp only [List.length_tail, List.length_append, List.length_singleton]
          omega
        · rename_i h
          simp only [List.length_append, List.length_singleton] at h ⊢
          omega
    · rw [addToMemory_memory_eq]
      by_cases hmem : s ∈ a.memory
      · rw [if_pos hmem]; exact hnd
      · rw [if_neg hmem]
        have hnd' : (a.memory ++ [s]).Nodup := append_singleton_nodup hnd hmem
        split
        · exact tail_nodup hnd'
        · exact hnd'
    · intro p hp
      rw [addToMemory_ltm_eq] at hp
      have hltm0 : ∀ q ∈ (if (a.longTermMemory.find? (fun p => p.1 == c)).isNone then
            a.longTermMemory ++ [(c, ([] : List String))] else a.longTermMemory),
          q.2.length ≤ 50 ∧ q.2.Nodup := by
        intro q hq
        split at hq
        · rcases List.mem_append.mp hq with h | h
          · exact hltm q h
          · simp only [List.mem_singleton] at h
            rw [h]
            exact ⟨by simp, by simp⟩
        · exact hltm q hq
      rcases mem_modifyFirst hp with h | ⟨x, hx, _, rfl⟩
      · exact hltm0 p h
      · have hx' := hltm0 x hx
        unfold ltmUpdate
        by_cases hsx : s ∈ x.2
        · simpa [hsx] using hx'
        · simp only [hsx, if_false]
          constructor
          · split
            · rename_i h
              simp only [List.length_tail, List.length_append, List.length_singleton]
              omega
            · rename_i h
              simp only [List.length_append, List.length_singleton] at h ⊢
              omega
          · have hnd' : (x.2 ++ [s]).Nodup := append_singleton_nodup hx'.2 hsx
            split
            · exact tail_nodup hnd'
            · exact hnd'
  · intro a c s
    obtain ⟨q, hfind, hq⟩ := find_addToMemory a c s
    exact addToMemory_of_mem _ c s (mem_addToMemory a c s) hfind hq
  · intro a c s x xs hm hlen hs
    rw [addToMemory_memory_eq, if_neg hs, hm]
    rw [if_pos]
    · rfl
    · rw [hm] at hlen
      simp only [List.length_append, List.length_cons, List.length_singleton] at hlen ⊢
      omega

/-- Witness for C10 at concrete inputs: a full short-term store evicts its
oldest entry for a 21st distinct insight, a repeated insight is stored once,
and the caps hold after an add on the fresh agent. -/
theorem claim_C10_witness :
    (fullMemAgent.memory = "m0" :: fullMemAgent.memory.tail
      ∧ fullMemAgent.memory.length = 20 ∧ "fresh" ∉ fullMemAgent.memory)
    ∧ (addToMemory fullMemAgent "c" "fresh").memory = fullMemAgent.memory.tail ++ ["fresh"]
    ∧ addToMemory (addToMemory initialAgent "c" "x") "c" "x" = addToMemory initialAgent "c" "x"
    ∧ (addToMemory initialAgent "c" "x").memory.length ≤ 20 :=
  ⟨by decide,
   claim_C10.2.2 fullMemAgent "c" "fresh" "m0" fullMemAgent.memory.tail
     (by decide) (by decide) (by decide),
   claim_C10.2.1 initialAgent "c" "x",
   (claim_C10.1 initialAgent "c" "x" (by decide) (by decide) (by simp [initialAgent])).1⟩

/-! ## Claim C2: execute_step with an exhausted plan -/

/-- The active-task object, rewritten. -/
theorem activeTaskObj_eq {a : SohayAgent} {i : Int} {t : Task}
    (hact : a.activeTask = some i) (hfind : findTask a.tasks i = some t) :
    activeTaskObj a = some t := by
  unfold activeTaskObj
  rw [hact]
  exact hfind

/-- An environment with no Sohay instance attached (`self.sohay is None`). -/
def soloEnv : Env :=
  { sohay := none
    searchDirect := false
    searchAndFormat := fun _ => .error "search unavailable"
    cwd := "/work" }

/-- A task whose plan is exhausted: one step, already executed. -/
def c2task : Task :=
  { Task.new "alpha" 1 none 101 0 with
      status := .inProgress, plan := ["step one"], currentStep := 1, results := ["done"] }

def c2agent : SohayAgent :=
  { initialAgent with tasks := [c2task], activeTask := some 101, state := .executing }

/-- C2, counterexample: invoking the execution step with
`current_step ≥ len(plan)` marks the task completed but transitions the agent
to LEARNING, not to REFLECTING as the claim states. -/
theorem claim_C2_counterexample :
    c2agent.activeTask = some 101
    ∧ (findTask c2agent.tasks 101).map Task.plan = some ["step one"]
    ∧ (findTask c2agent.tasks 101).map Task.currentStep = some 1
    ∧ ((executeStep soloEnv c2agent 7).tasks.map Task.status = [.completed])
    ∧ (executeStep soloEnv c2agent 7).state = .learning
    ∧ ¬(executeStep soloEnv c2agent 7).state = .reflecting := by
  decide

/-- C2, amended: for an active task with a nonempty plan, invoking the
execution step with `current_step ≥ len(plan)` marks the task completed
(status = completed, completed_at set to the invocation time) and transitions
the agent to LEARNING, skipping REFLECTING. -/
theorem claim_C2 :
    ∀ (env : Env) (a : SohayAgent) (now i : Int) (t : Task),
      a.activeTask = some i → findTask a.tasks i = some t →
      t.plan ≠ [] → t.plan.length ≤ t.currentStep →
      ∃ t', findTask (executeStep env a now).tasks i = some t'
        ∧ t'.status = .completed ∧ t'.completedAt = some now
        ∧ (executeStep env a now).state = .learning := by
  intro env a now i t hact hfind hplan hstep
  obtain rfl : t.id = i := findTask_id hfind
  unfold executeStep
  rw [activeTaskObj_eq hact hfind]
  dsimp only
  rw [if_neg (by simpa [List.isEmpty_iff] using hplan), if_pos hstep]
  refine ⟨t.markComplete now, ?_, rfl, rfl, rfl⟩
  show (modifyFirst (fun u => u.id == t.id) (fun u => u.markComplete now) a.tasks).find?
      (fun u => u.id == t.id) = some (t.markComplete now)
  unfold findTask at hfind
  rw [find?_modifyFirst _ (fun x => by simp), hfind]
  rfl

/-- Witness for C2 at the concrete exhausted-plan agent. -/
theorem claim_C2_witness :
    (c2agent.activeTask = some 101 ∧ findTask c2agent.tasks 101 = some c2task
      ∧ c2task.plan ≠ [] ∧ c2task.plan.length ≤ c2task.currentStep)
    ∧ ∃ t', findTask (executeStep soloEnv c2agent 7).tasks 101 = some t'
        ∧ t'.status = .completed ∧ t'.completedAt = some 7
        ∧ (executeStep soloEnv c2agent 7).state = .learning :=
  ⟨by decide,
   claim_C2 soloEnv c2agent 7 101 c2task (by decide) (by decide) (by decide) (by decide)⟩

/-! ## Claim C4: purity of plan generation -/

/-- A task with a deadline, mid-activation. -/
def c4task : Task :=
  { Task.new "hello" 1 (some 200000) 101 0 with status := .inProgress }

def c4agent : SohayAgent :=
  { initialAgent with tasks := [c4task], activeTask := some 101, state := .planning }

/-- C4, counterexample: two planning invocations on the same agent (identical
goal text and identical memory snapshot) produce different plans when the task
has a deadline, because the generated plan also depends on the invocation
time: far from the deadline a monitoring step is appended, close to it an
URGENT step is prepended. -/
theorem claim_C4_counterexample :
    (planTask c4agent 0).tasks.map Task.goal = (planTask c4agent 199000).tasks.map Task.goal
    ∧ (planTask c4agent 0).memory = (planTask c4agent 199000).memory
    ∧ ¬(planTask c4agent 0).tasks.map Task.plan = (planTask c4agent 199000).tasks.map Task.plan := by
  decide

/-- C4, amended: plan generation is a pure function of the goal text, the
short-term memory snapshot, the task's deadline and the invocation time; when
the task has no deadline it depends only on goal and memory, and the prior
plan is always discarded (the regenerated plan is `buildPlan`, whatever the
previous plan was). -/
theorem claim_C4 :
    (∀ (goal : String) (memory : List String) (now₁ now₂ : Int),
      buildPlan goal memory none now₁ = buildPlan goal memory none now₂)
    ∧ (∀ (a : SohayAgent) (now i : Int) (t : Task),
      a.activeTask = some i → findTask a.tasks i = some t →
      ∃ t', findTask (planTask a now).tasks i = some t'
        ∧ t'.plan = buildPlan t.goal a.memory t.deadline now
        ∧ (planTask a now).state = .executing) := by
  constructor
  · intro goal memory now₁ now₂
    rfl
  · intro a now i t hact hfind
    obtain rfl : t.id = i := findTask_id hfind
    unfold planTask
    rw [activeTaskObj_eq hact hfind]
    dsimp only
    refine ⟨{ t with plan := buildPlan t.goal a.memory t.deadline now }, ?_, rfl, rfl⟩
    show (modifyFirst (fun u => u.id == t.id)
        (fun u => { u with plan := buildPlan t.goal a.memory t.deadline now }) a.tasks).find?
        (fun u => u.id == t.id) = some _
    unfold findTask at hfind
    rw [find?_modifyFirst _ (fun x => by simp), hfind]
    rfl

/-- Witness material for C4: a deadline-free task. -/
def c4freeTask : Task :=
  { Task.new "hello" 1 none 101 0 with status := .inProgress }

def c4freeAgent : SohayAgent :=
  { initialAgent with tasks := [c4freeTask], activeTask := some 101, state := .planning }

theorem claim_C4_witness :
    buildPlan "hello" ["note"] none 5 = buildPlan "hello" ["note"] none 987654
    ∧ (c4freeAgent.activeTask = some 101 ∧ findTask c4freeAgent.tasks 101 = some c4freeTask)
    ∧ ∃ t', findTask (planTask c4freeAgent 5).tasks 101 = some t'
        ∧ t'.plan = buildPlan c4freeTask.goal c4freeAgent.memory c4freeTask.deadline 5
        ∧ (planTask c4freeAgent 5).state = .executing :=
  ⟨claim_C4.1 "hello" ["note"] 5 987654,
   by decide,
   claim_C4.2 c4freeAgent 5 101 c4freeTask (by decide) (by decide)⟩

/-! ## Claim C9: collaborator failures are captured, execution advances -/

/-- One execution step on an unfinished active task appends exactly one
result and advances `current_step` by exactly one. -/
theorem executeStep_advance :
    ∀ (env : Env) (a : SohayAgent) (now i : Int) (t : Task),
      a.activeTask = some i → findTask a.tasks i = some t →
      t.currentStep < t.plan.length →
      ∃ t', findTask (executeStep env a now).tasks i = some t'
        ∧ t'.results = t.results ++ [stepResult env t.goal (t.plan.getD t.currentStep "")]
        ∧ t'.currentStep = t.currentStep + 1 := by
  intro env a now i t hact hfind hstep
  obtain rfl : t.id = i := findTask_id hfind
  unfold executeStep
  rw [activeTaskObj_eq hact hfind]
  dsimp only
  rw [if_neg (by simp [List.isEmpty_iff]; intro h; rw [h] at hstep; simp at hstep),
    if_neg (by omega)]
  refine ⟨{ t with
      results := t.results ++ [stepResult env t.goal (t.plan.getD t.currentStep "")],
      currentStep := t.currentStep + 1 }, ?_, rfl, rfl⟩
  show (modifyFirst (fun u => u.id == t.id)
      (fun u => { u with
        results := u.results ++ [stepResult env t.goal (t.plan.getD t.currentStep "")],
        currentStep := u.currentStep + 1 }) a.tasks).find?
      (fun u => u.id == t.id) = some _
  unfold findTask at hfind
  rw [find?_modifyFirst _ (fun x => by simp), hfind]
  rfl

/-- C9: no failure of a dispatched collaborator call escapes `execute_step`
(the embedding is total), the step's result is still appended and
`current_step` still advances by one; a failing shell execution's message is
captured inside the step's result string, which contains "Error". -/
theorem claim_C9 :
    (∀ (env : Env) (a : SohayAgent) (now i : Int) (t : Task),
      a.activeTask = some i → findTask a.tasks i = some t →
      t.currentStep < t.plan.length →
      ∃ t', findTask (executeStep env a now).tasks i = some t'
        ∧ t'.results = t.results ++ [stepResult env t.goal (t.plan.getD t.currentStep "")]
        ∧ t'.currentStep = t.currentStep + 1)
    ∧ (∀ (c : Collab) (sd : Bool) (saf : String → Except String String) (cwd m : String),
      c.executeShellCommand "tests now" "agent_shell" cwd = .error m →
      stepResult ⟨some c, sd, saf, cwd⟩ "goal g" "run tests now" = "Error executing command: " ++ m
        ∧ ContainsSub "Error" (stepResult ⟨some c, sd, saf, cwd⟩ "goal g" "run tests now")) := by
  constructor
  · exact executeStep_advance
  · intro c sd saf cwd m hshell
    have hred : stepResult ⟨some c, sd, saf, cwd⟩ "goal g" "run tests now"
        = (match c.executeShellCommand "tests now" "agent_shell" cwd with
           | .ok r => "Executed command \x27" ++ "tests now" ++ "\x27:\n\n" ++ r
           | .error e => "Error executing command: " ++ e) := rfl
    rw [hred, hshell]
    refine ⟨rfl, "", " executing command: " ++ m, ?_⟩
    rw [← String.append_assoc]
    rfl

/-- A collaborator whose shell execution always fails. -/
def failShellCollab : Collab :=
  { googleSearch := fun _ => .ok "results"
    hasHandleBrowserCommand := false
    browser := false
    readFile := fun _ => .ok "contents"
    executeShellCommand := fun _ _ _ => .error "boom" }

def failShellEnv : Env :=
  { sohay := some failShellCollab
    searchDirect := false
    searchAndFormat := fun _ => .error "unavailable"
    cwd := "/w" }

/-- A task about to run a failing shell step. -/
def c9task : Task :=
  { Task.new "goal g" 1 none 101 0 with
      status := .inProgress, plan := ["run tests now"], currentStep := 0 }

def c9agent : SohayAgent :=
  { initialAgent with tasks := [c9task], activeTask := some 101, state := .executing }

/-- Witness for C9: the failing shell call is captured in the step result,
which still gets appended while `current_step` advances. -/
theorem claim_C9_witness :
    (c9agent.activeTask = some 101 ∧ findTask c9agent.tasks 101 = some c9task
      ∧ c9task.currentStep < c9task.plan.length)
    ∧ (∃ t', findTask (executeStep failShellEnv c9agent 3).tasks 101 = some t'
        ∧ t'.results = c9task.results
            ++ [stepResult failShellEnv c9task.goal (c9task.plan.getD c9task.currentStep "")]
        ∧ t'.currentStep = c9task.currentStep + 1)
    ∧ stepResult ⟨some failShellCollab, false, fun _ => .error "unavailable", "/w"⟩
        "goal g" "run tests now" = "Error executing command: " ++ "boom"
    ∧ ContainsSub "Error"
        (stepResult ⟨some failShellCollab, false, fun _ => .error "unavailable", "/w"⟩
          "goal g" "run tests now") :=
  ⟨by decide,
   claim_C9.1 failShellEnv c9agent 3 101 c9task (by decide) (by decide) (by decide),
   (claim_C9.2 failShellCollab false (fun _ => .error "unavailable") "/w" "boom" rfl).1,
   (claim_C9.2 failShellCollab false (fun _ => .error "unavailable") "/w" "boom" rfl).2⟩

/-! ## Claim C6: recurring-task spawning -/

theorem length_modifyFirst {α : Type _} (p : α → Bool) (f : α → α) (l : List α) :
    (modifyFirst p f l).length = l.length := by
  induction l with
  | nil => rfl
  | cons x xs ih =>
    simp only [modifyFirst]
    by_cases hp : p x = true
    · simp [hp]
    · simp [hp, ih]

theorem modifyFirst_append_single {α : Type _} {p : α → Bool} {f : α → α}
    {l : List α} {x : α} (hx : p x = false) :
    modifyFirst p f (l ++ [x]) = modifyFirst p f l ++ [x] := by
  induction l with
  | nil => simp [modifyFirst, hx]
  | cons z zs ih =>
    simp only [List.cons_append, modifyFirst]
    by_cases hp : p z = true
    · simp [hp]
    · simp [hp, ih]

theorem find?_append_left {α : Type _} {p : α → Bool} {l₁ l₂ : List α} {x : α}
    (h : l₁.find? p = some x) : (l₁ ++ l₂).find? p = some x := by
  rw [List.find?_append, h]
  rfl

/-- The first due template found by the recurrence scan is a member of
`tasks`, resolved by its own id. -/
theorem findDueScheduled_findTask {a : SohayAgent} {now : Int} {tpl : Task}
    (h : findDueScheduled a now = some tpl) :
    findTask a.tasks tpl.id = some tpl := by
  obtain ⟨i, _, hdue⟩ := List.exists_of_findSome?_eq_some h
  unfold dueTemplate at hdue
  cases hfind : findTask a.tasks i with
  | none =>
    rw [hfind] at hdue
    dsimp only at hdue
    exact absurd hdue (by simp)
  | some t =>
    rw [hfind] at hdue
    dsimp only at hdue
    cases hnr : t.nextRun with
    | none =>
      rw [hnr] at hdue
      dsimp only at hdue
      exact absurd hdue (by simp)
    | some r =>
      rw [hnr] at hdue
      dsimp only at hdue
      by_cases hr : now ≥ r
      · rw [if_pos hr] at hdue
        obtain rfl : t = tpl := by injection hdue
        rw [findTask_id hfind]
        exact hfind
      · rw [if_neg hr] at hdue
        exact absurd hdue (by simp)

/-- Fields of a spawned instance. -/
theorem spawnFromTemplate_fields (tpl : Task) (fresh now : Int)
    (hdeps : tpl.dependencies.Nodup) :
    (spawnFromTemplate tpl fresh now).id = fresh
    ∧ (spawnFromTemplate tpl fresh now).goal = tpl.goal
    ∧ (spawnFromTemplate tpl fresh now).priority = tpl.priority
    ∧ (spawnFromTemplate tpl fresh now).deadline = tpl.deadline
    ∧ (spawnFromTemplate tpl fresh now).dependencies = tpl.dependencies
    ∧ (spawnFromTemplate tpl fresh now).status = .pending
    ∧ (spawnFromTemplate tpl fresh now).plan = []
    ∧ (spawnFromTemplate tpl fresh now).results = []
    ∧ (spawnFromTemplate tpl fresh now).schedule = none
    ∧ (spawnFromTemplate tpl fresh now).nextRun = none := by
  unfold spawnFromTemplate
  refine ⟨?_, ?_, ?_, ?_, ?_, ?_, ?_, ?_, ?_, ?_⟩
  · rw [foldl_addDependency_id]; rfl
  · rw [foldl_addDependency_goal]; rfl
  · rw [foldl_addDependency_priority]; rfl
  · rw [foldl_addDependency_deadline]; rfl
  · rw [foldl_addDependency_deps]
    · rfl
    · simpa [Task.new] using hdeps
  · rw [foldl_addDependency_status]; rfl
  · rw [foldl_addDependency_plan]; rfl
  · rw [foldl_addDependency_results]; rfl
  · rw [foldl_addDependency_schedule]; rfl
  · rw [foldl_addDependency_nextRun]; rfl

/-- C6: on a tick whose recurrence scan finds a due template, exactly one new
independent task instance is spawned (the tick returns early), carrying the
template's goal, priority, deadline and dependencies with a fresh id, empty
plan and results, status pending and no schedule; the template itself only
has its `next_run` recomputed from `now` according to the schedule type
(minutes, hours, days, weeks; a month is 30·interval days; an unknown type
advances one day), so the template does not execute. -/
theorem claim_C6 :
    ∀ (env : Env) (a : SohayAgent) (now fresh : Int) (tpl : Task) (ty : String) (k : Int),
      a.autonomousMode = true →
      a.checkInterval ≤ now - a.lastActionTime →
      findDueScheduled a now = some tpl →
      fresh ≠ tpl.id →
      tpl.dependencies.Nodup →
      tpl.schedule = some ⟨ty, k⟩ →
      (runAutonomously env a now fresh).1.tasks.length = a.tasks.length + 1
      ∧ (∃ nt, (runAutonomously env a now fresh).1.tasks.getLast? = some nt
          ∧ nt.id = fresh ∧ nt.goal = tpl.goal ∧ nt.priority = tpl.priority
          ∧ nt.deadline = tpl.deadline ∧ nt.dependencies = tpl.dependencies
          ∧ nt.status = .pending ∧ nt.plan = [] ∧ nt.results = []
          ∧ nt.schedule = none ∧ nt.nextRun = none)
      ∧ findTask (runAutonomously env a now fresh).1.tasks tpl.id
          = some (tpl.calculateNextRun now)
      ∧ (tpl.calculateNextRun now).status = tpl.status
      ∧ (tpl.calculateNextRun now).currentStep = tpl.currentStep
      ∧ (tpl.calculateNextRun now).plan = tpl.plan
      ∧ (ty = "minutes" → (tpl.calculateNextRun now).nextRun = some (now + 60 * k))
      ∧ (ty = "hourly" → (tpl.calculateNextRun now).nextRun = some (now + 3600 * k))
      ∧ (ty = "daily" → (tpl.calculateNextRun now).nextRun = some (now + 86400 * k))
      ∧ (ty = "weekly" → (tpl.calculateNextRun now).nextRun = some (now + 604800 * k))
      ∧ (ty = "monthly" → (tpl.calculateNextRun now).nextRun = some (now + 86400 * (30 * k)))
      ∧ (ty ≠ "minutes" → ty ≠ "hourly" → ty ≠ "daily" → ty ≠ "weekly" → ty ≠ "monthly" →
          (tpl.calculateNextRun now).nextRun = some (now + 86400)) := by
  intro env a now fresh tpl ty k hmode htime hdue hfresh hdeps hsched
  have htpl : findTask a.tasks tpl.id = some tpl := findDueScheduled_findTask hdue
  obtain ⟨hid, hgoal, hprio, hdl, hdep, hst, hpl, hres, hsch, hnr⟩ :=
    spawnFromTemplate_fields tpl fresh now hdeps
  have hrun : (runAutonomously env a now fresh).1 =
      { a with
          lastActionTime := now
          tasks := modifyFirst (fun u => u.id == tpl.id) (fun u => u.calculateNextRun now)
            (a.tasks ++ [spawnFromTemplate tpl fresh now]) } := by
    unfold runAutonomously
    rw [if_neg (by rw [hmode]; simp), if_neg (by omega)]
    dsimp only
    have hdue' : findDueScheduled
        { a with lastActionTime := now } now = some tpl := hdue
    rw [hdue']
  have hpnew : ((spawnFromTemplate tpl fresh now).id == tpl.id) = false := by
    rw [hid]
    simpa using hfresh
  rw [hrun]
  refine ⟨?_, ?_, ?_, by simp, by simp, by simp, ?_, ?_, ?_, ?_, ?_, ?_⟩
  · show (modifyFirst _ _ _).length = _
    rw [length_modifyFirst, List.length_append]
    rfl
  · refine ⟨spawnFromTemplate tpl fresh now, ?_, hid, hgoal, hprio, hdl, hdep, hst, hpl, hres, hsch, hnr⟩
    show (modifyFirst _ _ _).getLast? = _
    rw [@modifyFirst_append_single Task (fun u => u.id == tpl.id)
      (fun u => u.calculateNextRun now) a.tasks (spawnFromTemplate tpl fresh now) hpnew,
      List.getLast?_concat]
  · show (modifyFirst _ _ _).find? _ = _
    rw [@modifyFirst_append_single Task (fun u => u.id == tpl.id)
      (fun u => u.calculateNextRun now) a.tasks (spawnFromTemplate tpl fresh now) hpnew]
    refine find?_append_left ?_
    rw [find?_modifyFirst _ (fun x => by simp)]
    unfold findTask at htpl
    rw [htpl]
    rfl
  · intro h
    unfold Task.calculateNextRun
    rw [hsched, h]
    simp
  · intro h
    unfold Task.calculateNextRun
    rw [hsched, h]
    simp
  · intro h
    unfold Task.calculateNextRun
    rw [hsched, h]
    simp
  · intro h
    unfold Task.calculateNextRun
    rw [hsched, h]
    simp
  · intro h
    unfold Task.calculateNextRun
    rw [hsched, h]
    simp
  · intro h1 h2 h3 h4 h5
    unfold Task.calculateNextRun
    rw [hsched]
    simp only [if_neg h1, if_neg h2, if_neg h3, if_neg h4, if_neg h5]

/-- Witness material for C6: a daily template due at the tick time. -/
def c6template : Task :=
  { Task.new "daily sync" 2 none 7 0 with
      schedule := some ⟨"daily", 1⟩, nextRun := some 50 }

def c6agent : SohayAgent :=
  { initialAgent with
      tasks := [c6template]
      scheduledTasks := [7]
      autonomousMode := true }

theorem claim_C6_witness :
    (c6agent.autonomousMode = true ∧ c6agent.checkInterval ≤ 100 - c6agent.lastActionTime
      ∧ findDueScheduled c6agent 100 = some c6template
      ∧ (99 : Int) ≠ c6template.id ∧ c6template.dependencies.Nodup
      ∧ c6template.schedule = some ⟨"daily", 1⟩)
    ∧ (runAutonomously soloEnv c6agent 100 99).1.tasks.length = c6agent.tasks.length + 1
    ∧ (∃ nt, (runAutonomously soloEnv c6agent 100 99).1.tasks.getLast? = some nt
        ∧ nt.id = 99 ∧ nt.goal = c6template.goal ∧ nt.priority = c6template.priority
        ∧ nt.deadline = c6template.deadline ∧ nt.dependencies = c6template.dependencies
        ∧ nt.status = .pending ∧ nt.plan = [] ∧ nt.results = []
        ∧ nt.schedule = none ∧ nt.nextRun = none)
    ∧ findTask (runAutonomously soloEnv c6agent 100 99).1.tasks c6template.id
        = some (c6template.calculateNextRun 100)
    ∧ ((c6template.calculateNextRun 100).nextRun = some (100 + 86400 * 1)) := by
  refine ⟨by decide, ?_, ?_, ?_, ?_⟩
  · exact (claim_C6 soloEnv c6agent 100 99 c6template "daily" 1 (by decide) (by decide)
      (by decide) (by decide) (by decide) (by decide)).1
  · exact (claim_C6 soloEnv c6agent 100 99 c6template "daily" 1 (by decide) (by decide)
      (by decide) (by decide) (by decide) (by decide)).2.1
  · exact (claim_C6 soloEnv c6agent 100 99 c6template "daily" 1 (by decide) (by decide)
      (by decide) (by decide) (by decide) (by decide)).2.2.1
  · exact (claim_C6 soloEnv c6agent 100 99 c6template "daily" 1 (by decide) (by decide)
      (by decide) (by decide) (by decide) (by decide)).2.2.2.2.2.2.2.2.1 rfl

/-! ## Claim C5: scheduler selection order -/

/-- The spec's example tasks: A(priority 5, no deadline), B(priority 5,
deadline one day out), C(priority 3). -/
def exTaskA : Task := Task.new "A" 5 none 11 0
def exTaskB : Task := { Task.new "B" 5 (some 86400) 12 0 with createdAt := 1 }
def exTaskC : Task := Task.new "C" 3 none 13 2

/-- C5: when no task is active, a tick that performs a scheduling decision
activates a pending, unblocked task that is minimal under the ordering key
`(-priority, deadline-or-top, created_at)` — higher priority first, earlier
deadline next (missing deadline is the top of the order), older creation time
last — marking it in_progress and entering PLANNING; on the spec's example
the candidate order is B, A, C. -/
theorem claim_C5 :
    (∀ (env : Env) (a : SohayAgent) (now fresh : Int),
      a.autonomousMode = true →
      a.checkInterval ≤ now - a.lastActionTime →
      findDueScheduled a now = none →
      a.activeTask = none →
      pendingUnblocked (refreshTasks a.tasks) ≠ [] →
      ∃ sel, sel ∈ pendingUnblocked (refreshTasks a.tasks)
        ∧ (runAutonomously env a now fresh).1.activeTask = some sel.id
        ∧ (∀ u ∈ pendingUnblocked (refreshTasks a.tasks), taskLe sel u)
        ∧ (runAutonomously env a now fresh).1.state = .planning
        ∧ ∃ t' ∈ (runAutonomously env a now fresh).1.tasks,
            t'.id = sel.id ∧ t'.status = .inProgress)
    ∧ List.insertionSort taskLe [exTaskA, exTaskB, exTaskC] = [exTaskB, exTaskA, exTaskC] := by
  constructor
  · intro env a now fresh hmode htime hdue hact hpend
    cases hsort : (pendingUnblocked (refreshTasks a.tasks)).insertionSort taskLe with
    | nil =>
      exfalso
      have hperm := List.perm_insertionSort taskLe (pendingUnblocked (refreshTasks a.tasks))
      rw [hsort] at hperm
      exact hpend hperm.nil_eq.symm
    | cons sel rest =>
      have hperm := List.perm_insertionSort taskLe (pendingUnblocked (refreshTasks a.tasks))
      rw [hsort] at hperm
      have hsel : sel ∈ pendingUnblocked (refreshTasks a.tasks) :=
        hperm.mem_iff.mp (by simp)
      have hsorted := List.sorted_insertionSort taskLe (pendingUnblocked (refreshTasks a.tasks))
      rw [hsort] at hsorted
      have hmin : ∀ u ∈ pendingUnblocked (refreshTasks a.tasks), taskLe sel u := by
        intro u hu
        rcases List.mem_cons.mp (hperm.symm.mem_iff.mp hu) with rfl | hu'
        · exact le_refl (taskKey u)
        · exact List.rel_of_sorted_cons hsorted u hu'
      have hrun : (runAutonomously env a now fresh).1 =
          { a with
              lastActionTime := now
              tasks := modifyFirst (fun u => u.id == sel.id)
                (fun u => { u with status := .inProgress }) (refreshTasks a.tasks)
              activeTask := some sel.id
              state := .planning } := by
        unfold runAutonomously
        rw [if_neg (by rw [hmode]; simp), if_neg (by omega)]
        dsimp only
        have hdue' : findDueScheduled { a with lastActionTime := now } now = none := hdue
        rw [hdue']
        dsimp only
        rw [hact]
        dsimp only
        rw [if_neg (by simpa [List.isEmpty_iff] using hpend)]
        rw [hsort]
      refine ⟨sel, hsel, by rw [hrun], hmin, by rw [hrun], ?_⟩
      rw [hrun]
      have hselp : (fun u => u.id == sel.id) sel = true := by simp
      have hmem : sel ∈ refreshTasks a.tasks := List.mem_of_mem_filter hsel
      have hfind : ∃ x, (refreshTasks a.tasks).find? (fun u => u.id == sel.id) = some x := by
        have : ((refreshTasks a.tasks).find? (fun u => u.id == sel.id)).isSome = true :=
          List.find?_isSome.mpr ⟨sel, hmem, hselp⟩
        exact Option.isSome_iff_exists.mp this
      obtain ⟨x, hx⟩ := hfind
      obtain ⟨l₁, l₂, hl, _, hmf⟩ :=
        modifyFirst_decomp (fun (u : Task) => u.id == sel.id)
          (fun (u : Task) => { u with status := Status.inProgress }) hx
      refine ⟨{ x with status := .inProgress }, ?_, ?_, rfl⟩
      · show _ ∈ modifyFirst _ _ (refreshTasks a.tasks)
        rw [hmf]
        simp
      · have := List.find?_some hx
        simpa using this
  · decide

/-- Witness material for C5: the example agent holding A, B, C as pending
tasks. -/
def exAgent : SohayAgent :=
  { initialAgent with
      tasks := [exTaskA, exTaskB, exTaskC]
      autonomousMode := true }

theorem claim_C5_witness :
    (exAgent.autonomousMode = true ∧ exAgent.checkInterval ≤ 100 - exAgent.lastActionTime
      ∧ findDueScheduled exAgent 100 = none ∧ exAgent.activeTask = none
      ∧ pendingUnblocked (refreshTasks exAgent.tasks) ≠ [])
    ∧ ∃ sel, sel ∈ pendingUnblocked (refreshTasks exAgent.tasks)
        ∧ (runAutonomously soloEnv exAgent 100 99).1.activeTask = some sel.id
        ∧ (∀ u ∈ pendingUnblocked (refreshTasks exAgent.tasks), taskLe sel u)
        ∧ (runAutonomously soloEnv exAgent 100 99).1.state = .planning
        ∧ ∃ t' ∈ (runAutonomously soloEnv exAgent 100 99).1.tasks,
            t'.id = sel.id ∧ t'.status = .inProgress :=
  ⟨⟨by decide, by decide, by decide, by decide, by decide⟩,
   claim_C5.1 soloEnv exAgent 100 99 (by decide) (by decide) (by decide) (by decide) (by decide)⟩

/-! ## Branch-reduction lemmas for the tick -/

theorem runAutonomously_disabled (env : Env) (a : SohayAgent) (now fresh : Int)
    (h : a.autonomousMode = false) :
    (runAutonomously env a now fresh).1 = a := by
  unfold runAutonomously
  rw [if_pos (by rw [h]; rfl)]

theorem runAutonomously_waiting (env : Env) (a : SohayAgent) (now fresh : Int)
    (h : a.autonomousMode = true) (h2 : now - a.lastActionTime < a.checkInterval) :
    (runAutonomously env a now fresh).1 = a := by
  unfold runAutonomously
  rw [if_neg (by rw [h]; simp), if_pos h2]

theorem runAutonomously_spawn (env : Env) (a : SohayAgent) (now fresh : Int) {tpl : Task}
    (h : a.autonomousMode = true) (h2 : a.checkInterval ≤ now - a.lastActionTime)
    (hdue : findDueScheduled a now = some tpl) :
    (runAutonomously env a now fresh).1 =
      { a with
          lastActionTime := now
          tasks := modifyFirst (fun u => u.id == tpl.id) (fun u => u.calculateNextRun now)
            (a.tasks ++ [spawnFromTemplate tpl fresh now]) } := by
  unfold runAutonomously
  rw [if_neg (by rw [h]; simp), if_neg (by omega)]
  dsimp only
  have hdue' : findDueScheduled { a with lastActionTime := now } now = some tpl := hdue
  rw [hdue']

theorem runAutonomously_noPending (env : Env) (a : SohayAgent) (now fresh : Int)
    (h : a.autonomousMode = true) (h2 : a.checkInterval ≤ now - a.lastActionTime)
    (hdue : findDueScheduled a now = none) (hact : a.activeTask = none)
    (hpend : pendingUnblocked (refreshTasks a.tasks) = []) :
    (runAutonomously env a now fresh).1 =
      { a with lastActionTime := now, tasks := refreshTasks a.tasks } := by
  unfold runAutonomously
  rw [if_neg (by rw [h]; simp), if_neg (by omega)]
  dsimp only
  have hdue' : findDueScheduled { a with lastActionTime := now } now = none := hdue
  rw [hdue']
  dsimp only
  rw [hact]
  dsimp only
  rw [if_pos (by simpa [List.isEmpty_iff] using hpend)]
  split
  · split
    · rfl
    · rfl
  · rfl

theorem runAutonomously_select (env : Env) (a : SohayAgent) (now fresh : Int)
    {sel : Task} {rest : List Task}
    (h : a.autonomousMode = true) (h2 : a.checkInterval ≤ now - a.lastActionTime)
    (hdue : findDueScheduled a now = none) (hact : a.activeTask = none)
    (hsort : (pendingUnblocked (refreshTasks a.tasks)).insertionSort taskLe = sel :: rest) :
    (runAutonomously env a now fresh).1 =
      { a with
          lastActionTime := now
          tasks := modifyFirst (fun u => u.id == sel.id)
            (fun u => { u with status := .inProgress }) (refreshTasks a.tasks)
          activeTask := some sel.id
          state := .planning } := by
  have hpend : pendingUnblocked (refreshTasks a.tasks) ≠ [] := by
    intro hnil
    rw [hnil] at hsort
    simp [List.insertionSort] at hsort
  unfold runAutonomously
  rw [if_neg (by rw [h]; simp), if_neg (by omega)]
  dsimp only
  have hdue' : findDueScheduled { a with lastActionTime := now } now = none := hdue
  rw [hdue']
  dsimp only
  rw [hact]
  dsimp only
  rw [if_neg (by simpa [List.isEmpty_iff] using hpend)]
  rw [hsort]

theorem runAutonomously_dispatch (env : Env) (a : SohayAgent) (now fresh : Int) {j : Int}
    (h : a.autonomousMode = true) (h2 : a.checkInterval ≤ now - a.lastActionTime)
    (hdue : findDueScheduled a now = none) (hact : a.activeTask = some j) :
    (runAutonomously env a now fresh).1 =
      (dispatchActive env { a with lastActionTime := now, tasks := refreshTasks a.tasks } now).1 := by
  unfold runAutonomously
  rw [if_neg (by rw [h]; simp), if_neg (by omega)]
  dsimp only
  have hdue' : findDueScheduled { a with lastActionTime := now } now = none := hdue
  rw [hdue']
  dsimp only
  rw [hact]

/-! ## Claim C3: blocked tasks and activation -/

theorem refreshTasks_ids (tasks : List Task) :
    (refreshTasks tasks).map Task.id = tasks.map Task.id := by
  unfold refreshTasks
  rw [List.map_map]
  refine List.map_congr_left ?_
  intro t _
  show (if t.status == .pending then _ else t).id = t.id
  split
  · rw [Task.updateBlockedStatus_id]
  · rfl

/-- A member of the unblocked-pending candidate set has empty `blocked_by`
and pending status. -/
theorem pendingUnblocked_spec {tasks : List Task} {t : Task}
    (h : t ∈ pendingUnblocked tasks) : t.status = .pending ∧ t.blockedBy = [] := by
  unfold pendingUnblocked at h
  have := List.of_mem_filter h
  rw [Bool.and_eq_true] at this
  constructor
  · simpa using this.1
  · have hnb : t.isBlocked = false := by simpa using this.2
    unfold Task.isBlocked at hnb
    simp only [gt_iff_lt, decide_eq_false_iff_not, not_lt, Nat.le_zero] at hnb
    exact List.length_eq_zero.mp hnb

/-- C3, amended: the autonomous scheduler never activates a blocked task — if
a tick turns the idle agent's active-task reference from none to some id, the
task so referenced is in_progress with empty `blocked_by` after the tick's
blocking refresh.  (The explicit `activate task` command does not check
blocking; see the counterexample.) -/
theorem claim_C3 :
    ∀ (env : Env) (a : SohayAgent) (now fresh i : Int),
      (a.tasks.map Task.id).Nodup →
      a.activeTask = none →
      (runAutonomously env a now fresh).1.activeTask = some i →
      ∃ t' ∈ (runAutonomously env a now fresh).1.tasks,
        t'.id = i ∧ t'.status = .inProgress ∧ t'.blockedBy = [] := by
  intro env a now fresh i hnd hact hsome
  by_cases hmode : a.autonomousMode = true
  case neg =>
    rw [runAutonomously_disabled env a now fresh (by simpa using hmode)] at hsome
    rw [hact] at hsome
    exact absurd hsome (by simp)
  by_cases htime : a.checkInterval ≤ now - a.lastActionTime
  case neg =>
    rw [runAutonomously_waiting env a now fresh hmode (by omega)] at hsome
    rw [hact] at hsome
    exact absurd hsome (by simp)
  cases hdue : findDueScheduled a now with
  | some tpl =>
    have hsome' : a.activeTask = some i := by
      have := runAutonomously_spawn env a now fresh hmode htime hdue
      rw [this] at hsome
      exact hsome
    rw [hact] at hsome'
    exact absurd hsome' (by simp)
  | none =>
    cases hsort : (pendingUnblocked (refreshTasks a.tasks)).insertionSort taskLe with
    | nil =>
      have hpend : pendingUnblocked (refreshTasks a.tasks) = [] := by
        have hperm := List.perm_insertionSort taskLe (pendingUnblocked (refreshTasks a.tasks))
        rw [hsort] at hperm
        exact hperm.nil_eq.symm
      have hsome' : a.activeTask = some i := by
        rw [runAutonomously_noPending env a now fresh hmode htime hdue hact hpend] at hsome
        exact hsome
      rw [hact] at hsome'
      exact absurd hsome' (by simp)
    | cons sel rest =>
      have hrun := runAutonomously_select env a now fresh hmode htime hdue hact hsort
      have hsel : sel ∈ pendingUnblocked (refreshTasks a.tasks) := by
        have hperm := List.perm_insertionSort taskLe (pendingUnblocked (refreshTasks a.tasks))
        rw [hsort] at hperm
        exact hperm.mem_iff.mp (by simp)
      have hid : sel.id = i := by
        have hsome' : some sel.id = some i := by
          rw [hrun] at hsome
          exact hsome
        injection hsome'
      have hmem : sel ∈ refreshTasks a.tasks := List.mem_of_mem_filter hsel
      have hndr : ((refreshTasks a.tasks).map Task.id).Nodup := by
        rw [refreshTasks_ids]
        exact hnd
      have hfind : (refreshTasks a.tasks).find? (fun u => u.id == sel.id) = some sel :=
        findTask_of_mem_nodup hndr hmem
      obtain ⟨l₁, l₂, hl, _, hmf⟩ :=
        modifyFirst_decomp (fun (u : Task) => u.id == sel.id)
          (fun (u : Task) => { u with status := Status.inProgress }) hfind
      obtain ⟨hpending, hblocked⟩ := pendingUnblocked_spec hsel
      refine ⟨{ sel with status := .inProgress }, ?_, hid, rfl, hblocked⟩
      rw [hrun]
      show _ ∈ modifyFirst _ _ (refreshTasks a.tasks)
      rw [hmf]
      simp

/-- Witness for C3's amended statement on the example agent: the tick selects
task B (id 12), which is unblocked. -/
theorem claim_C3_witness :
    ((exAgent.tasks.map Task.id).Nodup ∧ exAgent.activeTask = none
      ∧ (runAutonomously soloEnv exAgent 100 99).1.activeTask = some 12)
    ∧ ∃ t' ∈ (runAutonomously soloEnv exAgent 100 99).1.tasks,
        t'.id = 12 ∧ t'.status = .inProgress ∧ t'.blockedBy = [] :=
  ⟨by decide,
   claim_C3 soloEnv exAgent 100 99 12 (by decide) (by decide) (by decide)⟩

/-- The trace refuting C3 as stated: task 102 depends on the incomplete task
101, yet `activate task 2` activates it. -/
def c3ops : List AOp :=
  [.add "alpha" 1 none none none 5 101,
   .add "beta" 1 none (some [101]) none 6 102,
   .activate "2"]

def c3bad : SohayAgent := runOps c3ops initialAgent

/-- C3, counterexample: a task with non-empty `blocked_by` (dependency 101 is
not completed) becomes active and in_progress through the explicit
`activate task` command, which never checks blocking. -/
theorem claim_C3_counterexample :
    Reached c3bad
    ∧ c3bad.tasks.map (fun t => (t.status, t.blockedBy))
        = [(.pending, []), (.inProgress, [101])]
    ∧ c3bad.activeTask = some 102 :=
  ⟨reached_of_validOps (by decide), by decide, by decide⟩

/-! ## Claim C8: reaching IDLE only through LEARNING (autonomous loop) -/

theorem find?_map_pres {α : Type _} (g : α → α) (p : α → Bool)
    (h : ∀ x, p (g x) = p x) (l : List α) :
    (l.map g).find? p = (l.find? p).map g := by
  induction l with
  | nil => rfl
  | cons x xs ih =>
    by_cases hp : p x = true
    · rw [List.map_cons, List.find?_cons_of_pos _ (by rw [h]; exact hp),
        List.find?_cons_of_pos _ hp]
      rfl
    · rw [List.map_cons, List.find?_cons_of_neg _ (by rw [h]; simpa using hp),
        List.find?_cons_of_neg _ (by simpa using hp), ih]

/-- The blocking refresh keeps every task locatable with its plan, status and
bookkeeping fields intact (only `blocked_by` may change). -/
theorem findTask_refreshTasks {tasks : List Task} {j : Int} {t : Task}
    (h : findTask tasks j = some t) :
    ∃ t', findTask (refreshTasks tasks) j = some t'
      ∧ t'.plan = t.plan ∧ t'.status = t.status ∧ t'.id = t.id
      ∧ t'.results = t.results ∧ t'.currentStep = t.currentStep := by
  unfold refreshTasks findTask
  rw [find?_map_pres _ _ (fun x => by
    show ((if x.status == Status.pending then _ else x).id == j) = (x.id == j)
    split
    · rw [Task.updateBlockedStatus_id]
    · rfl)]
  unfold findTask at h
  rw [h]
  refine ⟨_, rfl, ?_, ?_, ?_, ?_, ?_⟩
  · show (if t.status == Status.pending then _ else t).plan = t.plan
    split
    · rw [Task.updateBlockedStatus_plan]
    · rfl
  · show (if t.status == Status.pending then _ else t).status = t.status
    split
    · rw [Task.updateBlockedStatus_status]
    · rfl
  · show (if t.status == Status.pending then _ else t).id = t.id
    split
    · rw [Task.updateBlockedStatus_id]
    · rfl
  · show (if t.status == Status.pending then _ else t).results = t.results
    split
    · rw [Task.updateBlockedStatus_results]
    · rfl
  · show (if t.status == Status.pending then _ else t).currentStep = t.currentStep
    split
    · rw [Task.updateBlockedStatus_currentStep]
    · rfl

/-- C8, amended: inside the autonomous loop, a tick that performs the
per-state dispatch on an active task with a nonempty plan reaches IDLE only
out of the LEARNING state (the `complete task` and `delete task` commands,
by contrast, jump straight to IDLE — see the counterexample). -/
theorem claim_C8 :
    ∀ (env : Env) (a : SohayAgent) (now fresh j : Int) (t : Task),
      a.autonomousMode = true →
      a.checkInterval ≤ now - a.lastActionTime →
      findDueScheduled a now = none →
      a.activeTask = some j →
      findTask a.tasks j = some t →
      t.plan ≠ [] →
      (runAutonomously env a now fresh).1.state = .idle →
      a.state = .learning := by
  intro env a now fresh j t hmode htime hdue hact hfindT hplan hidle
  rw [runAutonomously_dispatch env a now fresh hmode htime hdue hact] at hidle
  obtain ⟨t', hfind', hplan', _, _, _, _⟩ := findTask_refreshTasks hfindT
  have hact' : ({ a with lastActionTime := now, tasks := refreshTasks a.tasks }
      : SohayAgent).activeTask = some j := hact
  have hfindr : findTask ({ a with lastActionTime := now, tasks := refreshTasks a.tasks }
      : SohayAgent).tasks j = some t' := hfind'
  cases hstate : a.state with
  | planning =>
    have hred : (dispatchActive env
        { a with lastActionTime := now, tasks := refreshTasks a.tasks } now).1 =
        planTask { a with lastActionTime := now, tasks := refreshTasks a.tasks } now := by
      unfold dispatchActive
      rw [if_pos (show ({ a with lastActionTime := now, tasks := refreshTasks a.tasks }
        : SohayAgent).state = .planning from hstate)]
    rw [hred] at hidle
    unfold planTask at hidle
    rw [activeTaskObj_eq hact' hfindr] at hidle
    dsimp only at hidle
    exact absurd hidle (by simp)
  | executing =>
    have hred : (dispatchActive env
        { a with lastActionTime := now, tasks := refreshTasks a.tasks } now).1 =
        executeStep env { a with lastActionTime := now, tasks := refreshTasks a.tasks } now := by
      unfold dispatchActive
      rw [if_neg (show ¬({ a with lastActionTime := now, tasks := refreshTasks a.tasks }
          : SohayAgent).state = .planning by rw [hstate]; simp),
        if_pos (show ({ a with lastActionTime := now, tasks := refreshTasks a.tasks }
          : SohayAgent).state = .executing from hstate)]
    rw [hred] at hidle
    unfold executeStep at hidle
    rw [activeTaskObj_eq hact' hfindr] at hidle
    dsimp only at hidle
    rw [if_neg (by rw [List.isEmpty_iff, hplan']; exact hplan)] at hidle
    split at hidle
    · exact absurd hidle (by simp)
    · split at hidle
      · exact absurd hidle (by simp)
      · rw [hstate] at hidle
        exact absurd hidle (by simp)
  | reflecting =>
    have hred : (dispatchActive env
        { a with lastActionTime := now, tasks := refreshTasks a.tasks } now).1 =
        reflectOnTask { a with lastActionTime := now, tasks := refreshTasks a.tasks } now := by
      unfold dispatchActive
      rw [if_neg (show ¬({ a with lastActionTime := now, tasks := refreshTasks a.tasks }
          : SohayAgent).state = .planning by rw [hstate]; simp),
        if_neg (show ¬({ a with lastActionTime := now, tasks := refreshTasks a.tasks }
          : SohayAgent).state = .executing by rw [hstate]; simp),
        if_pos (show ({ a with lastActionTime := now, tasks := refreshTasks a.tasks }
          : SohayAgent).state = .reflecting from hstate)]
    rw [hred] at hidle
    unfold reflectOnTask at hidle
    rw [activeTaskObj_eq hact' hfindr] at hidle
    dsimp only at hidle
    exact absurd hidle (by simp)
  | learning => rfl
  | idle =>
    have hred : (dispatchActive env
        { a with lastActionTime := now, tasks := refreshTasks a.tasks } now).1 =
        { a with lastActionTime := now, tasks := refreshTasks a.tasks, state := .planning } := by
      unfold dispatchActive
      rw [if_neg (show ¬({ a with lastActionTime := now, tasks := refreshTasks a.tasks }
          : SohayAgent).state = .planning by rw [hstate]; simp),
        if_neg (show ¬({ a with lastActionTime := now, tasks := refreshTasks a.tasks }
          : SohayAgent).state = .executing by rw [hstate]; simp),
        if_neg (show ¬({ a with lastActionTime := now, tasks := refreshTasks a.tasks }
          : SohayAgent).state = .reflecting by rw [hstate]; simp),
        if_neg (show ¬({ a with lastActionTime := now, tasks := refreshTasks a.tasks }
          : SohayAgent).state = .learning by rw [hstate]; simp)]
    rw [hred] at hidle
    exact absurd hidle (by simp)

/-- Witness material for C8: an agent in the LEARNING phase of its active
task; the tick runs `learn_from_task` and lands in IDLE. -/
def c8learnTask : Task :=
  { Task.new "alpha" 1 none 101 0 with
      status := .inProgress, plan := ["step"], currentStep := 1, results := ["r"] }

def c8learnAgent : SohayAgent :=
  { initialAgent with
      tasks := [c8learnTask]
      activeTask := some 101
      state := .learning
      autonomousMode := true }

theorem claim_C8_witness :
    (c8learnAgent.autonomousMode = true
      ∧ c8learnAgent.checkInterval ≤ 100 - c8learnAgent.lastActionTime
      ∧ findDueScheduled c8learnAgent 100 = none
      ∧ c8learnAgent.activeTask = some 101
      ∧ findTask c8learnAgent.tasks 101 = some c8learnTask
      ∧ c8learnTask.plan ≠ []
      ∧ (runAutonomously soloEnv c8learnAgent 100 99).1.state = .idle)
    ∧ c8learnAgent.state = .learning :=
  ⟨by decide,
   claim_C8 soloEnv c8learnAgent 100 99 101 c8learnTask (by decide) (by decide)
     (by decide) (by decide) (by decide) (by decide) (by decide)⟩

/-- The trace refuting C8 as stated: add a task, activate it (PLANNING), then
issue the `complete task` command — the agent returns to IDLE without the
LEARNING state ever having been visited. -/
def c8ops1 : List AOp := [.add "alpha" 1 none none none 5 101]
def c8ops2 : List AOp := c8ops1 ++ [.activate "1"]
def c8ops3 : List AOp := c8ops2 ++ [.complete "1" 9]
def c8mid : SohayAgent := runOps c8ops2 initialAgent
def c8final : SohayAgent := runOps c8ops3 initialAgent

/-- C8, counterexample: every state of the explicit trace
`initial → add → activate → complete` is listed; the agent holds an active
task from activation on, returns to IDLE via `complete task`, and LEARNING is
never visited. -/
theorem claim_C8_counterexample :
    Reached c8final
    ∧ c8mid.activeTask = some 101 ∧ c8mid.state = .planning
    ∧ c8final = applyAOp (.complete "1" 9) c8mid
    ∧ c8final.state = .idle ∧ c8final.activeTask = none
    ∧ initialAgent.state ≠ .learning
    ∧ (runOps c8ops1 initialAgent).state ≠ .learning
    ∧ c8mid.state ≠ .learning
    ∧ c8final.state ≠ .learning :=
  ⟨reached_of_validOps (by decide), by decide, by decide, rfl, by decide, by decide,
   by decide, by decide, by decide, by decide⟩

/-! ## Specification lemmas for the agent operations

These describe the task-list, active-task and status effects of each
operation; the reachability invariants of C1 and C7 are proved from them. -/

theorem buildNewTask_fields (a : SohayAgent) (goal : String) (priority : Int)
    (deadline : Option Int) (dependsOn : Option (List Int)) (schedule : Option Schedule)
    (now fresh : Int) :
    (buildNewTask a goal priority deadline dependsOn schedule now fresh).id = fresh
    ∧ (buildNewTask a goal priority deadline dependsOn schedule now fresh).status = .pending
    ∧ (buildNewTask a goal priority deadline dependsOn schedule now fresh).results = []
    ∧ (buildNewTask a goal priority deadline dependsOn schedule now fresh).currentStep = 0 := by
  unfold buildNewTask
  refine ⟨?_, ?_, ?_, ?_⟩ <;>
    · repeat' split
      all_goals
        simp [Task.new, foldl_addDependency_id, foldl_addDependency_status,
          foldl_addDependency_results, foldl_addDependency_currentStep]

theorem addTask_spec (a : SohayAgent) (goal : String) (priority : Int)
    (deadline : Option Int) (dependsOn : Option (List Int)) (schedule : Option Schedule)
    (now fresh : Int) :
    (addTask a goal priority deadline dependsOn schedule now fresh).1.tasks
        = a.tasks ++ [buildNewTask a goal priority deadline dependsOn schedule now fresh]
    ∧ ((addTask a goal priority deadline dependsOn schedule now fresh).1.activeTask
          = a.activeTask
        ∨ (a.activeTask = none
            ∧ (addTask a goal priority deadline dependsOn schedule now fresh).1.activeTask
              = some (buildNewTask a goal priority deadline dependsOn schedule now fresh).id)) := by
  unfold addTask
  dsimp only
  split
  · rename_i h
    exact ⟨rfl, Or.inr ⟨h.1, rfl⟩⟩
  · exact ⟨rfl, Or.inl rfl⟩

theorem activateTask_spec (a : SohayAgent) (s : String) :
    (activateTask a s).1 = a
    ∨ ∃ t, getTask a s = some t ∧ t ∈ a.tasks
      ∧ (activateTask a s).1.tasks =
          modifyFirst (fun u => u.id == t.id) (fun u => { u with status := .inProgress }) a.tasks
      ∧ (activateTask a s).1.activeTask = some t.id := by
  unfold activateTask
  cases hg : getTask a s with
  | none => exact Or.inl rfl
  | some t => exact Or.inr ⟨t, rfl, getTask_mem hg, rfl, rfl⟩

theorem completeTask_spec (a : SohayAgent) (s : String) (now : Int) :
    (completeTask a s now).1 = a
    ∨ ∃ t, getTask a s = some t ∧ t ∈ a.tasks
      ∧ (completeTask a s now).1.tasks =
          modifyFirst (fun u => u.id == t.id) (fun u => u.markComplete now) a.tasks
      ∧ ((a.activeTask = some t.id ∧ (completeTask a s now).1.activeTask = none)
          ∨ (¬a.activeTask = some t.id ∧ (completeTask a s now).1.activeTask = a.activeTask)) := by
  unfold completeTask
  cases hg : getTask a s with
  | none => exact Or.inl rfl
  | some t =>
    dsimp only
    by_cases hact : a.activeTask = some t.id
    · rw [if_pos hact]
      exact Or.inr ⟨t, rfl, getTask_mem hg, rfl, Or.inl ⟨hact, rfl⟩⟩
    · rw [if_neg hact]
      exact Or.inr ⟨t, rfl, getTask_mem hg, rfl, Or.inr ⟨hact, rfl⟩⟩

theorem deleteTask_spec (a : SohayAgent) (s : String) :
    (deleteTask a s).1 = a
    ∨ ∃ t, getTask a s = some t
      ∧ (deleteTask a s).1.tasks = a.tasks.filter (fun u => u.id != t.id)
      ∧ ((a.activeTask = some t.id ∧ (deleteTask a s).1.activeTask = none)
          ∨ (¬a.activeTask = some t.id ∧ (deleteTask a s).1.activeTask = a.activeTask)) := by
  unfold deleteTask
  cases hg : getTask a s with
  | none => exact Or.inl rfl
  | some t =>
    dsimp only
    by_cases hact : a.activeTask = some t.id
    · rw [if_pos hact]
      exact Or.inr ⟨t, rfl, rfl, Or.inl ⟨hact, rfl⟩⟩
    · rw [if_neg hact]
      exact Or.inr ⟨t, rfl, rfl, Or.inr ⟨hact, rfl⟩⟩

theorem scheduleTaskCmd_spec (a : SohayAgent) (s ty : String) (interval now : Int) :
    (scheduleTaskCmd a s ty interval now).1 = a
    ∨ ∃ t, getTask a s = some t
      ∧ (scheduleTaskCmd a s ty interval now).1.tasks =
          modifyFirst (fun u => u.id == t.id) (fun u => u.setSchedule ty interval now) a.tasks
      ∧ (scheduleTaskCmd a s ty interval now).1.activeTask = a.activeTask := by
  unfold scheduleTaskCmd
  cases hg : getTask a s with
  | none => exact Or.inl rfl
  | some t => exact Or.inr ⟨t, rfl, rfl, rfl⟩

theorem planTask_spec (a : SohayAgent) (now : Int) :
    (planTask a now) = a
    ∨ ∃ t, activeTaskObj a = some t
      ∧ (planTask a now).tasks =
          modifyFirst (fun u => u.id == t.id)
            (fun u => { u with plan := buildPlan t.goal a.memory t.deadline now }) a.tasks
      ∧ (planTask a now).activeTask = a.activeTask := by
  unfold planTask
  cases hg : activeTaskObj a with
  | none => exact Or.inl rfl
  | some t => exact Or.inr ⟨t, rfl, rfl, rfl⟩

theorem executeStep_spec (env : Env) (a : SohayAgent) (now : Int) :
    ((executeStep env a now).tasks = a.tasks
      ∧ (executeStep env a now).activeTask = a.activeTask)
    ∨ (∃ t, activeTaskObj a = some t
        ∧ (executeStep env a now).tasks =
            modifyFirst (fun u => u.id == t.id) (fun u => u.markComplete now) a.tasks
        ∧ (executeStep env a now).activeTask = a.activeTask)
    ∨ (∃ t r, activeTaskObj a = some t
        ∧ (executeStep env a now).tasks =
            modifyFirst (fun u => u.id == t.id)
              (fun u => { u with results := u.results ++ [r], currentStep := u.currentStep + 1 })
              a.tasks
        ∧ (executeStep env a now).activeTask = a.activeTask) := by
  unfold executeStep
  cases hg : activeTaskObj a with
  | none => exact Or.inl ⟨rfl, rfl⟩
  | some t =>
    dsimp only
    split
    · exact Or.inl ⟨rfl, rfl⟩
    · split
      · exact Or.inr (Or.inl ⟨t, rfl, rfl, rfl⟩)
      · exact Or.inr (Or.inr ⟨t, _, rfl, rfl, rfl⟩)

theorem reflectOnTask_spec (a : SohayAgent) (now : Int) :
    ((reflectOnTask a now).tasks = a.tasks
      ∧ (reflectOnTask a now).activeTask = a.activeTask)
    ∨ (∃ t note, activeTaskObj a = some t
        ∧ (reflectOnTask a now).tasks =
            modifyFirst (fun u => u.id == t.id)
              (fun u => { u with notes := u.notes ++ [note] }) a.tasks
        ∧ (reflectOnTask a now).activeTask = a.activeTask) := by
  unfold reflectOnTask
  cases hg : activeTaskObj a with
  | none => exact Or.inl ⟨rfl, rfl⟩
  | some t => exact Or.inr ⟨t, _, rfl, rfl, rfl⟩

theorem tasks_ite (c : Prop) [Decidable c] (x y : SohayAgent) :
    (if c then x else y).tasks = if c then x.tasks else y.tasks := by
  split <;> rfl

theorem activeTask_ite (c : Prop) [Decidable c] (x y : SohayAgent) :
    (if c then x else y).activeTask = if c then x.activeTask else y.activeTask := by
  split <;> rfl

theorem tasks_omatch (o : Option String) (f : String → SohayAgent) (g : SohayAgent) :
    (match o with | some x => f x | none => g).tasks =
      (match o with | some x => (f x).tasks | none => g.tasks) := by
  cases o <;> rfl

theorem omatch_self (o : Option String) (X : List Task) :
    (match o with | some _ => X | none => X) = X := by
  cases o <;> rfl

/-- The task-list, active-task and state effect of `learn_from_task` when a
task is active: a learning note is appended to it, it is marked complete
unless already completed, the active-task reference is cleared and the agent
returns to IDLE; the interleaved memory writes do not touch the tasks. -/
theorem learnFromTask_spec (a : SohayAgent) (now : Int) {t : Task}
    (hobj : activeTaskObj a = some t) :
    (learnFromTask a now).activeTask = none
    ∧ (learnFromTask a now).state = .idle
    ∧ ∃ note,
      (¬t.status = .completed
        ∧ (learnFromTask a now).tasks =
            modifyFirst (fun u => u.id == t.id) (fun u => u.markComplete now)
              (modifyFirst (fun u => u.id == t.id)
                (fun u => { u with notes := u.notes ++ [note] }) a.tasks))
      ∨ (t.status = .completed
        ∧ (learnFromTask a now).tasks =
            modifyFirst (fun u => u.id == t.id)
              (fun u => { u with notes := u.notes ++ [note] }) a.tasks) := by
  unfold learnFromTask
  rw [hobj]
  dsimp only
  refine ⟨rfl, rfl, ?_⟩
  by_cases hst : t.status = .completed
  · rw [if_neg (by simpa using hst)]
    refine ⟨learningNote t, Or.inr ⟨hst, ?_⟩⟩
    simp only [addToMemory_tasks, tasks_ite, tasks_omatch, omatch_self, ite_self]
  · rw [if_pos (by simpa using hst)]
    refine ⟨learningNote t, Or.inl ⟨hst, ?_⟩⟩
    simp only [addToMemory_tasks, tasks_ite, tasks_omatch, omatch_self, ite_self]

/-- `learn_from_task` without an active task only resets the state. -/
theorem learnFromTask_none (a : SohayAgent) (now : Int)
    (h : activeTaskObj a = none) :
    learnFromTask a now = { a with state := .idle } := by
  unfold learnFromTask
  rw [h]

/-- The per-state dispatch, as one equation. -/
theorem dispatchActive_eq (env : Env) (a : SohayAgent) (now : Int) :
    (dispatchActive env a now).1 =
      if a.state = .planning then planTask a now
      else if a.state = .executing then executeStep env a now
      else if a.state = .reflecting then reflectOnTask a now
      else if a.state = .learning then learnFromTask a now
      else { a with state := .planning } := by
  unfold dispatchActive
  repeat' split
  all_goals rfl

/-! ## Claim C7: step-count bookkeeping -/

/-- The bookkeeping invariant: every task holds exactly one recorded result
per executed step. -/
def rcOK (tasks : List Task) : Prop :=
  ∀ t ∈ tasks, t.results.length = t.currentStep

theorem rcOK_modifyFirst {p : Task → Bool} {f : Task → Task} {l : List Task}
    (h : rcOK l)
    (hf : ∀ x, x.results.length = x.currentStep →
      (f x).results.length = (f x).currentStep) :
    rcOK (modifyFirst p f l) := by
  intro u hu
  rcases mem_modifyFirst hu with h' | ⟨x, hx, _, rfl⟩
  · exact h u h'
  · exact hf x (h x hx)

theorem rcOK_map {g : Task → Task} {l : List Task}
    (h : rcOK l)
    (hg : ∀ x, x.results.length = x.currentStep →
      (g x).results.length = (g x).currentStep) :
    rcOK (l.map g) := by
  intro u hu
  obtain ⟨x, hx, rfl⟩ := List.mem_map.mp hu
  exact hg x (h x hx)

theorem rcOK_refreshTasks {l : List Task} (h : rcOK l) : rcOK (refreshTasks l) := by
  unfold refreshTasks
  refine rcOK_map h ?_
  intro x hx
  split
  · rw [Task.updateBlockedStatus_results, Task.updateBlockedStatus_currentStep]
    exact hx
  · exact hx

theorem rcOK_append_single {l : List Task} {x : Task}
    (h : rcOK l) (hx : x.results.length = x.currentStep) : rcOK (l ++ [x]) := by
  intro u hu
  rcases List.mem_append.mp hu with h' | h'
  · exact h u h'
  · simp only [List.mem_singleton] at h'
    rw [h']
    exact hx

/-- Preservation of the bookkeeping invariant by every operation. -/
theorem rcOK_step {a a' : SohayAgent} (hs : StepR a a') (h : rcOK a.tasks) :
    rcOK a'.tasks := by
  obtain ⟨op, hvalid, rfl⟩ := hs
  cases op with
  | enable => exact h
  | disable => exact h
  | remember c s => exact h
  | add goal priority deadline dependsOn schedule now fresh =>
    obtain ⟨htasks, _⟩ := addTask_spec a goal priority deadline dependsOn schedule now fresh
    show rcOK (addTask a goal priority deadline dependsOn schedule now fresh).1.tasks
    rw [htasks]
    obtain ⟨_, _, hres, hcs⟩ :=
      buildNewTask_fields a goal priority deadline dependsOn schedule now fresh
    exact rcOK_append_single h (by rw [hres, hcs]; rfl)
  | activate s =>
    show rcOK (activateTask a s).1.tasks
    rcases activateTask_spec a s with heq | ⟨t, _, _, htasks, _⟩
    · rw [heq]; exact h
    · rw [htasks]
      exact rcOK_modifyFirst h (fun x hx => hx)
  | complete s now =>
    show rcOK (completeTask a s now).1.tasks
    rcases completeTask_spec a s now with heq | ⟨t, _, _, htasks, _⟩
    · rw [heq]; exact h
    · rw [htasks]
      exact rcOK_modifyFirst h (fun x hx => by
        rw [Task.markComplete_results, Task.markComplete_currentStep]; exact hx)
  | delete s =>
    show rcOK (deleteTask a s).1.tasks
    rcases deleteTask_spec a s with heq | ⟨t, _, htasks, _⟩
    · rw [heq]; exact h
    · rw [htasks]
      intro u hu
      exact h u (List.mem_of_mem_filter hu)
  | schedCmd s ty interval now =>
    show rcOK (scheduleTaskCmd a s ty interval now).1.tasks
    rcases scheduleTaskCmd_spec a s ty interval now with heq | ⟨t, _, htasks, _⟩
    · rw [heq]; exact h
    · rw [htasks]
      exact rcOK_modifyFirst h (fun x hx => by
        rw [Task.setSchedule_results, Task.setSchedule_currentStep]; exact hx)
  | tick env now fresh =>
    show rcOK (runAutonomously env a now fresh).1.tasks
    by_cases hmode : a.autonomousMode = true
    case neg =>
      rw [runAutonomously_disabled env a now fresh (by simpa using hmode)]
      exact h
    by_cases htime : a.checkInterval ≤ now - a.lastActionTime
    case neg =>
      rw [runAutonomously_waiting env a now fresh hmode (by omega)]
      exact h
    cases hdue : findDueScheduled a now with
    | some tpl =>
      rw [runAutonomously_spawn env a now fresh hmode htime hdue]
      show rcOK (modifyFirst _ _ _)
      refine rcOK_modifyFirst (rcOK_append_single h ?_) ?_
      · unfold spawnFromTemplate
        rw [foldl_addDependency_results, foldl_addDependency_currentStep]
        rfl
      · intro x hx
        rw [Task.calculateNextRun_results, Task.calculateNextRun_currentStep]
        exact hx
    | none =>
      cases hact : a.activeTask with
      | none =>
        cases hsort : (pendingUnblocked (refreshTasks a.tasks)).insertionSort taskLe with
        | nil =>
          have hpend : pendingUnblocked (refreshTasks a.tasks) = [] := by
            have hperm := List.perm_insertionSort taskLe (pendingUnblocked (refreshTasks a.tasks))
            rw [hsort] at hperm
            exact hperm.nil_eq.symm
          rw [runAutonomously_noPending env a now fresh hmode htime hdue hact hpend]
          exact rcOK_refreshTasks h
        | cons sel rest =>
          rw [runAutonomously_select env a now fresh hmode htime hdue hact hsort]
          exact rcOK_modifyFirst (rcOK_refreshTasks h) (fun x hx => hx)
      | some j =>
        rw [runAutonomously_dispatch env a now fresh hmode htime hdue hact]
        rw [dispatchActive_eq]
        have h2 : rcOK ({ a with lastActionTime := now, tasks := refreshTasks a.tasks }
            : SohayAgent).tasks := rcOK_refreshTasks h
        split
        · rcases planTask_spec { a with lastActionTime := now, tasks := refreshTasks a.tasks }
              now with heq | ⟨t, _, htasks, _⟩
          · rw [heq]; exact h2
          · rw [htasks]
            exact rcOK_modifyFirst h2 (fun x hx => hx)
        · split
          · rcases executeStep_spec env
                { a with lastActionTime := now, tasks := refreshTasks a.tasks } now with
              ⟨htasks, _⟩ | ⟨t, _, htasks, _⟩ | ⟨t, r, _, htasks, _⟩
            · rw [htasks]; exact h2
            · rw [htasks]
              exact rcOK_modifyFirst h2 (fun x hx => by
                rw [Task.markComplete_results, Task.markComplete_currentStep]; exact hx)
            · rw [htasks]
              refine rcOK_modifyFirst h2 (fun x hx => ?_)
              show (x.results ++ [r]).length = x.currentStep + 1
              rw [List.length_append, hx]
              rfl
          · split
            · rcases reflectOnTask_spec
                  { a with lastActionTime := now, tasks := refreshTasks a.tasks } now with
                ⟨htasks, _⟩ | ⟨t, note, _, htasks, _⟩
              · rw [htasks]; exact h2
              · rw [htasks]
                exact rcOK_modifyFirst h2 (fun x hx => hx)
            · split
              · cases hobj : activeTaskObj
                    { a with lastActionTime := now, tasks := refreshTasks a.tasks } with
                | none =>
                  rw [learnFromTask_none _ now hobj]
                  exact h2
                | some t =>
                  obtain ⟨_, _, note, hspec⟩ := learnFromTask_spec _ now hobj
                  rcases hspec with ⟨_, htasks⟩ | ⟨_, htasks⟩
                  · rw [htasks]
                    refine rcOK_modifyFirst (rcOK_modifyFirst h2 (fun x hx => hx))
                      (fun x hx => by
                        rw [Task.markComplete_results, Task.markComplete_currentStep]; exact hx)
                  · rw [htasks]
                    exact rcOK_modifyFirst h2 (fun x hx => hx)
              · exact h2

/-- C7, amended: in every reachable agent state every task satisfies
`len(results) = current_step` (and `0 ≤ current_step` holds trivially for the
natural-number index), and each execution step on an unfinished task appends
exactly one result while incrementing `current_step` by exactly one.  The
upper bound `current_step ≤ len(plan)` does NOT hold in every reachable state
— re-planning a task whose plan shrank can leave `current_step` beyond the
plan (see the counterexample). -/
theorem claim_C7 :
    (∀ a : SohayAgent, Reached a → ∀ t ∈ a.tasks, t.results.length = t.currentStep)
    ∧ (∀ (env : Env) (a : SohayAgent) (now i : Int) (t : Task),
      a.activeTask = some i → findTask a.tasks i = some t →
      t.currentStep < t.plan.length →
      ∃ t', findTask (executeStep env a now).tasks i = some t'
        ∧ t'.results = t.results ++ [stepResult env t.goal (t.plan.getD t.currentStep "")]
        ∧ t'.currentStep = t.currentStep + 1) := by
  constructor
  · intro a h
    induction h with
    | refl => intro t ht; exact absurd ht (by simp [initialAgent])
    | tail _ hstep ih => exact rcOK_step hstep ih
  · exact executeStep_advance

/-- The trace refuting `current_step ≤ len(plan)`: a research task is planned
while a matching short-term insight pads the plan to 9 steps; 8 of them
execute; 20 unrelated insights then evict the matching one; re-activating the
task regenerates a 7-step plan while `current_step` is still 8. -/
def c7ops : List AOp :=
  [.enable, .remember "Fruit" "apples are good",
   .add "research about apples" 1 none none none 5 101,
   .tick soloEnv 1000 900, .tick soloEnv 1060 901, .tick soloEnv 1120 902,
   .tick soloEnv 1180 903, .tick soloEnv 1240 904, .tick soloEnv 1300 905,
   .tick soloEnv 1360 906, .tick soloEnv 1420 907, .tick soloEnv 1480 908]
  ++ ((List.range 20).map (fun i => .remember "Fruit" ("zzz" ++ toString i)))
  ++ [.activate "1", .tick soloEnv 2000 999]

def c7bad : SohayAgent := runOps c7ops initialAgent

/-- C7, counterexample: a reachable state whose single task has
`current_step = 8` but a plan of length 7, violating
`current_step ≤ len(plan)` (while `len(results) = current_step` still
holds). -/
theorem claim_C7_counterexample :
    Reached c7bad
    ∧ c7bad.tasks.map (fun t => (t.currentStep, t.plan.length, t.results.length))
        = [(8, 7, 8)]
    ∧ ∃ t ∈ c7bad.tasks, ¬t.currentStep ≤ t.plan.length :=
  ⟨reached_of_validOps (by decide), by decide, by decide⟩

/-- Witness for C7's amended reachability statement: a short activation-free
trace. -/
def c7naops : List AOp :=
  [.add "alpha" 1 none none none 5 101, .enable, .tick soloEnv 100 900]

theorem claim_C7_witness :
    Reached (runOps c7naops initialAgent)
    ∧ ∀ t ∈ (runOps c7naops initialAgent).tasks, t.results.length = t.currentStep :=
  ⟨reached_of_validOps (by decide),
   claim_C7.1 (runOps c7naops initialAgent) (reached_of_validOps (by decide))⟩

/-! ## Claim C1: at most one in_progress task -/

/-- The single-active-task invariant: task ids are pairwise distinct and
every in_progress task is the one the active-task reference points to. -/
def invOK (a : SohayAgent) : Prop :=
  (a.tasks.map Task.id).Nodup
  ∧ ∀ t ∈ a.tasks, t.status = .inProgress → a.activeTask = some t.id

theorem eq_of_mem_nodup_ids {l : List Task} (hnd : (l.map Task.id).Nodup)
    {u v : Task} (hu : u ∈ l) (hv : v ∈ l) (hid : u.id = v.id) : u = v := by
  have h1 := findTask_of_mem_nodup hnd hu
  have h2 := findTask_of_mem_nodup hnd hv
  rw [hid] at h1
  rw [h1] at h2
  injection h2

/-- After modifying the unique task with id `i` to a non-in_progress status,
no in_progress task remains, provided every in_progress task had id `i`. -/
theorem none_inProgress_modify {l : List Task} {i : Int} {f : Task → Task}
    (hnd : (l.map Task.id).Nodup) {x : Task}
    (hfind : l.find? (fun u => u.id == i) = some x)
    (hf : ¬(f x).status = .inProgress)
    (hinv : ∀ u ∈ l, u.status = .inProgress → u.id = i) :
    ∀ u ∈ modifyFirst (fun u => u.id == i) f l, ¬u.status = .inProgress := by
  obtain ⟨l₁, l₂, hl, hneg, hmf⟩ := modifyFirst_decomp _ f hfind
  intro u hu hst
  rw [hmf] at hu
  rcases List.mem_append.mp hu with hu1 | hu2
  · have hfalse : (fun u => u.id == i) u = false := hneg u hu1
    have hui : u.id = i := hinv u (by rw [hl]; exact List.mem_append_left _ hu1) hst
    simp [hui] at hfalse
  · rcases List.mem_cons.mp hu2 with rfl | hu3
    · exact hf hst
    · have hui : u.id = i :=
        hinv u (by rw [hl]; exact List.mem_append_right _ (List.mem_cons_of_mem _ hu3)) hst
      have hxi : x.id = i := by simpa using List.find?_some hfind
      rw [hl, List.map_append, List.map_cons] at hnd
      have hnotin : x.id ∉ l₂.map Task.id := by
        have := (List.nodup_middle.mp hnd)
        rw [List.nodup_cons] at this
        intro hmem
        exact this.1 (List.mem_append_right _ hmem)
      exact hnotin (by rw [hxi, ← hui]; exact List.mem_map_of_mem Task.id hu3)

/-- Status/id-preserving first-modifications preserve the pointing part of
the invariant. -/
theorem invPart_modify {l : List Task} {act : Option Int} {p : Task → Bool} {f : Task → Task}
    (hinv : ∀ u ∈ l, u.status = .inProgress → act = some u.id)
    (hf : ∀ x, (f x).status = x.status ∧ (f x).id = x.id) :
    ∀ u ∈ modifyFirst p f l, u.status = .inProgress → act = some u.id := by
  intro u hu hst
  rcases mem_modifyFirst hu with h' | ⟨x, hx, _, rfl⟩
  · exact hinv u h' hst
  · rw [(hf x).2]
    exact hinv x hx (by rw [← (hf x).1]; exact hst)

theorem invPart_refresh {l : List Task} {act : Option Int}
    (hinv : ∀ u ∈ l, u.status = .inProgress → act = some u.id) :
    ∀ u ∈ refreshTasks l, u.status = .inProgress → act = some u.id := by
  intro u hu hst
  unfold refreshTasks at hu
  obtain ⟨x, hx, rfl⟩ := List.mem_map.mp hu
  have hid : (if x.status == Status.pending then
      x.updateBlockedStatus ((l.filter (fun t => t.status == .completed)).map Task.id)
      else x).id = x.id := by
    split
    · rw [Task.updateBlockedStatus_id]
    · rfl
  have hstx : x.status = .inProgress := by
    revert hst
    split
    · rw [Task.updateBlockedStatus_status]; exact id
    · exact id
  rw [hid]
  exact hinv x hx hstx

/-- No in_progress task exists when nothing is active. -/
theorem no_inProgress_of_none {a : SohayAgent} (h : invOK a)
    (hact : a.activeTask = none) :
    ∀ u ∈ a.tasks, ¬u.status = .inProgress := by
  intro u hu hst
  have := h.2 u hu hst
  rw [hact] at this
  exact absurd this (by simp)

/-- The invariant bounds the number of in_progress tasks by one. -/
theorem invOK_filter_le_one (a : SohayAgent) (h : invOK a) :
    (a.tasks.filter (fun t => t.status == .inProgress)).length ≤ 1 := by
  obtain ⟨hnd, hinv⟩ := h
  cases hflt : a.tasks.filter (fun t => t.status == .inProgress) with
  | nil => simp
  | cons u us =>
    cases us with
    | nil => simp
    | cons v vs =>
      exfalso
      have hu : u ∈ a.tasks.filter (fun t => t.status == .inProgress) := by rw [hflt]; simp
      have hv : v ∈ a.tasks.filter (fun t => t.status == .inProgress) := by rw [hflt]; simp
      have hus : u.status = .inProgress := by simpa using List.of_mem_filter hu
      have hvs : v.status = .inProgress := by simpa using List.of_mem_filter hv
      have h1 := hinv u (List.mem_of_mem_filter hu) hus
      have h2 := hinv v (List.mem_of_mem_filter hv) hvs
      have hid : u.id = v.id := by
        rw [h1] at h2
        injection h2
      have hndf : ((a.tasks.filter (fun t => t.status == .inProgress)).map Task.id).Nodup :=
        ((List.filter_sublist a.tasks).map Task.id).nodup hnd
      rw [hflt] at hndf
      simp only [List.map_cons, List.nodup_cons, List.mem_cons] at hndf
      exact hndf.1 (Or.inl hid)

/-- Preservation of the single-active-task invariant by every operation other
than explicit activation. -/
theorem invOK_step {a a' : SohayAgent} (hs : StepNA a a') (h : invOK a) : invOK a' := by
  obtain ⟨op, hna, hvalid, rfl⟩ := hs
  obtain ⟨hnd, hinv⟩ := h
  cases op with
  | enable => exact ⟨hnd, hinv⟩
  | disable => exact ⟨hnd, hinv⟩
  | remember c s => exact ⟨hnd, hinv⟩
  | activate s => exact absurd hna (by simp [AOp.isActivate])
  | add goal priority deadline dependsOn schedule now fresh =>
    obtain ⟨htasks, hactive⟩ := addTask_spec a goal priority deadline dependsOn schedule now fresh
    obtain ⟨hid, hstat, _, _⟩ := buildNewTask_fields a goal priority deadline dependsOn schedule now fresh
    show invOK (addTask a goal priority deadline dependsOn schedule now fresh).1
    constructor
    · rw [htasks, List.map_append, List.map_singleton, hid]
      refine append_singleton_nodup hnd ?_
      have : ((a.tasks.map Task.id).contains fresh) = false := by
        have hv : validB (.add goal priority deadline dependsOn schedule now fresh) a = true := hvalid
        unfold validB at hv
        simpa using hv
      simpa using this
    · intro u hu hst
      rw [htasks] at hu
      rcases List.mem_append.mp hu with hu' | hu'
      · have hpoint := hinv u hu' hst
        rcases hactive with he | ⟨hnone, _⟩
        · rw [he]; exact hpoint
        · rw [hnone] at hpoint
          exact absurd hpoint (by simp)
      · simp only [List.mem_singleton] at hu'
        rw [hu', hstat] at hst
        exact absurd hst (by simp)
  | complete s now =>
    show invOK (completeTask a s now).1
    rcases completeTask_spec a s now with heq | ⟨t, hget, hmem, htasks, hactcase⟩
    · rw [heq]; exact ⟨hnd, hinv⟩
    constructor
    · rw [htasks, modifyFirst_map Task.id _ _ (fun x => by simp)]
      exact hnd
    · intro u hu hst
      rw [htasks] at hu
      rcases hactcase with ⟨hacteq, hactnew⟩ | ⟨hactne, hactsame⟩
      · exfalso
        have hfind : a.tasks.find? (fun u => u.id == t.id) = some t :=
          findTask_of_mem_nodup hnd hmem
        refine none_inProgress_modify hnd hfind (by simp) ?_ u hu hst
        intro v hv hvst
        have hp := hinv v hv hvst
        rw [hacteq] at hp
        injection hp with hp'
        exact hp'.symm
      · rcases mem_modifyFirst hu with hu' | ⟨x, hx, _, rfl⟩
        · rw [hactsame]; exact hinv u hu' hst
        · rw [Task.markComplete_status] at hst
          exact absurd hst (by simp)
  | delete s =>
    show invOK (deleteTask a s).1
    rcases deleteTask_spec a s with heq | ⟨t, hget, htasks, hactcase⟩
    · rw [heq]; exact ⟨hnd, hinv⟩
    constructor
    · rw [htasks]
      exact ((List.filter_sublist a.tasks).map Task.id).nodup hnd
    · intro u hu hst
      rw [htasks] at hu
      have humem := List.mem_of_mem_filter hu
      have hcond := List.of_mem_filter hu
      have hpoint := hinv u humem hst
      rcases hactcase with ⟨hacteq, hactnew⟩ | ⟨_, hactsame⟩
      · exfalso
        rw [hacteq] at hpoint
        injection hpoint with hp'
        simp [hp'] at hcond
      · rw [hactsame]; exact hpoint
  | schedCmd s ty interval now =>
    show invOK (scheduleTaskCmd a s ty interval now).1
    rcases scheduleTaskCmd_spec a s ty interval now with heq | ⟨t, hget, htasks, hactsame⟩
    · rw [heq]; exact ⟨hnd, hinv⟩
    constructor
    · rw [htasks, modifyFirst_map Task.id _ _ (fun x => by simp)]
      exact hnd
    · rw [htasks, hactsame]
      exact invPart_modify hinv (fun x => by simp)
  | tick env now fresh =>
    show invOK (runAutonomously env a now fresh).1
    by_cases hmode : a.autonomousMode = true
    case neg =>
      rw [runAutonomously_disabled env a now fresh (by simpa using hmode)]
      exact ⟨hnd, hinv⟩
    by_cases htime : a.checkInterval ≤ now - a.lastActionTime
    case neg =>
      rw [runAutonomously_waiting env a now fresh hmode (by omega)]
      exact ⟨hnd, hinv⟩
    cases hdue : findDueScheduled a now with
    | some tpl =>
      rw [runAutonomously_spawn env a now fresh hmode htime hdue]
      have hspawnid : (spawnFromTemplate tpl fresh now).id = fresh := by
        unfold spawnFromTemplate
        rw [foldl_addDependency_id]
        rfl
      have hspawnst : (spawnFromTemplate tpl fresh now).status = .pending := by
        unfold spawnFromTemplate
        rw [foldl_addDependency_status]
        rfl
      constructor
      · show ((modifyFirst _ _ _).map Task.id).Nodup
        rw [modifyFirst_map Task.id _ _ (fun x => by simp),
          List.map_append, List.map_singleton, hspawnid]
        refine append_singleton_nodup hnd ?_
        have hv : validB (.tick env now fresh) a = true := hvalid
        unfold validB at hv
        simpa using hv
      · intro u hu hst
        rcases mem_modifyFirst hu with hu' | ⟨x, hx, _, rfl⟩
        · rcases List.mem_append.mp hu' with hu2 | hu2
          · exact hinv u hu2 hst
          · simp only [List.mem_singleton] at hu2
            rw [hu2, hspawnst] at hst
            exact absurd hst (by simp)
        · rw [Task.calculateNextRun_status] at hst
          rw [Task.calculateNextRun_id]
          rcases List.mem_append.mp hx with hx2 | hx2
          · exact hinv x hx2 hst
          · simp only [List.mem_singleton] at hx2
            rw [hx2, hspawnst] at hst
            exact absurd hst (by simp)
    | none =>
      cases hact : a.activeTask with
      | none =>
        cases hsort : (pendingUnblocked (refreshTasks a.tasks)).insertionSort taskLe with
        | nil =>
          have hpend : pendingUnblocked (refreshTasks a.tasks) = [] := by
            have hperm := List.perm_insertionSort taskLe (pendingUnblocked (refreshTasks a.tasks))
            rw [hsort] at hperm
            exact hperm.nil_eq.symm
          rw [runAutonomously_noPending env a now fresh hmode htime hdue hact hpend]
          constructor
          · show ((refreshTasks a.tasks).map Task.id).Nodup
            rw [refreshTasks_ids]
            exact hnd
          · intro u hu hst
            have := invPart_refresh hinv u hu hst
            rw [hact] at this
            exact absurd this (by simp)
        | cons sel rest =>
          rw [runAutonomously_select env a now fresh hmode htime hdue hact hsort]
          constructor
          · show ((modifyFirst _ _ _).map Task.id).Nodup
            rw [modifyFirst_map Task.id _ _ (fun x => by simp), refreshTasks_ids]
            exact hnd
          · intro u hu hst
            rcases mem_modifyFirst hu with hu' | ⟨x, hx, hp, rfl⟩
            · exfalso
              have := invPart_refresh hinv u hu' hst
              rw [hact] at this
              exact absurd this (by simp)
            · show some sel.id = some _
              have : x.id = sel.id := by simpa using hp
              rw [this]
      | some j =>
        rw [runAutonomously_dispatch env a now fresh hmode htime hdue hact]
        have hnd2 : (({ a with lastActionTime := now, tasks := refreshTasks a.tasks }
            : SohayAgent).tasks.map Task.id).Nodup := by
          show ((refreshTasks a.tasks).map Task.id).Nodup
          rw [refreshTasks_ids]
          exact hnd
        have hinv2 : ∀ u ∈ ({ a with lastActionTime := now, tasks := refreshTasks a.tasks }
            : SohayAgent).tasks, u.status = .inProgress →
            ({ a with lastActionTime := now, tasks := refreshTasks a.tasks }
              : SohayAgent).activeTask = some u.id :=
          fun u hu hst => invPart_refresh hinv u hu hst
        rw [dispatchActive_eq]
        split
        · rcases planTask_spec { a with lastActionTime := now, tasks := refreshTasks a.tasks }
              now with heq | ⟨t, _, htasks, hactsame⟩
          · rw [heq]; exact ⟨hnd2, hinv2⟩
          constructor
          · rw [htasks, modifyFirst_map Task.id _ _ (fun x => by simp)]
            exact hnd2
          · rw [htasks, hactsame]
            exact invPart_modify hinv2 (fun x => by simp)
        · split
          · rcases executeStep_spec env
                { a with lastActionTime := now, tasks := refreshTasks a.tasks } now with
              ⟨htasks, hactsame⟩ | ⟨t, _, htasks, hactsame⟩ | ⟨t, r, _, htasks, hactsame⟩
            · constructor
              · rw [htasks]; exact hnd2
              · rw [htasks, hactsame]; exact hinv2
            · constructor
              · rw [htasks, modifyFirst_map Task.id _ _ (fun x => by simp)]
                exact hnd2
              · intro u hu hst
                rw [htasks] at hu
                rcases mem_modifyFirst hu with hu' | ⟨x, hx, _, rfl⟩
                · rw [hactsame]; exact hinv2 u hu' hst
                · rw [Task.markComplete_status] at hst
                  exact absurd hst (by simp)
            · constructor
              · rw [htasks, modifyFirst_map Task.id _ _ (fun x => by simp)]
                exact hnd2
              · rw [htasks, hactsame]
                exact invPart_modify hinv2 (fun x => by simp)
          · split
            · rcases reflectOnTask_spec
                  { a with lastActionTime := now, tasks := refreshTasks a.tasks } now with
                ⟨htasks, hactsame⟩ | ⟨t, note, _, htasks, hactsame⟩
              · constructor
                · rw [htasks]; exact hnd2
                · rw [htasks, hactsame]; exact hinv2
              · constructor
                · rw [htasks, modifyFirst_map Task.id _ _ (fun x => by simp)]
                  exact hnd2
                · rw [htasks, hactsame]
                  exact invPart_modify hinv2 (fun x => by simp)
            · split
              · cases hobj : activeTaskObj
                    { a with lastActionTime := now, tasks := refreshTasks a.tasks } with
                | none =>
                  rw [learnFromTask_none _ now hobj]
                  exact ⟨hnd2, hinv2⟩
                | some t =>
                  obtain ⟨hactnone, _, note, hspec⟩ := learnFromTask_spec _ now hobj
                  have htid : t.id = j := by
                    unfold activeTaskObj at hobj
                    rw [show ({ a with lastActionTime := now, tasks := refreshTasks a.tasks }
                      : SohayAgent).activeTask = some j from hact] at hobj
                    exact findTask_id hobj
                  have htmem : t ∈ refreshTasks a.tasks := by
                    unfold activeTaskObj at hobj
                    rw [show ({ a with lastActionTime := now, tasks := refreshTasks a.tasks }
                      : SohayAgent).activeTask = some j from hact] at hobj
                    exact findTask_mem hobj
                  have hfind2 : (refreshTasks a.tasks).find? (fun u => u.id == t.id) = some t :=
                    findTask_of_mem_nodup hnd2 htmem
                  have hinv2' : ∀ u ∈ refreshTasks a.tasks,
                      u.status = .inProgress → u.id = t.id := by
                    intro u hu hst
                    have := hinv2 u hu hst
                    have hj : a.activeTask = some u.id := this
                    rw [hact] at hj
                    injection hj with hj'
                    rw [← hj', htid]
                  rcases hspec with ⟨_, htasks⟩ | ⟨htcomp, htasks⟩
                  · constructor
                    · rw [htasks,
                        modifyFirst_map Task.id _ _ (fun x => by simp),
                        modifyFirst_map Task.id _ _ (fun x => by simp)]
                      exact hnd2
                    · intro u hu hst
                      exfalso
                      rw [htasks] at hu
                      have hndn : ((modifyFirst (fun u => u.id == t.id)
                          (fun u => { u with notes := u.notes ++ [note] })
                          (refreshTasks a.tasks)).map Task.id).Nodup := by
                        rw [modifyFirst_map Task.id _ _ (fun x => by simp)]
                        exact hnd2
                      have hfindn : (modifyFirst (fun u => u.id == t.id)
                          (fun u => { u with notes := u.notes ++ [note] })
                          (refreshTasks a.tasks)).find? (fun u => u.id == t.id)
                          = some { t with notes := t.notes ++ [note] } := by
                        rw [find?_modifyFirst _ (fun x => by simp), hfind2]
                        rfl
                      refine none_inProgress_modify hndn hfindn (by simp) ?_ u hu hst
                      intro v hv hvst
                      rcases mem_modifyFirst hv with hv' | ⟨y, hy, _, rfl⟩
                      · exact hinv2' v hv' hvst
                      · show y.id = t.id
                        exact hinv2' y hy hvst
                  · constructor
                    · rw [htasks, modifyFirst_map Task.id _ _ (fun x => by simp)]
                      exact hnd2
                    · intro u hu hst
                      exfalso
                      rw [htasks] at hu
                      rcases mem_modifyFirst hu with hu' | ⟨y, hy, _, rfl⟩
                      · have huid := hinv2' u hu' hst
                        have : u = t := eq_of_mem_nodup_ids hnd2 hu' htmem huid
                        rw [this, htcomp] at hst
                        exact absurd hst (by simp)
                      · have hyst : y.status = .inProgress := hst
                        have hyid := hinv2' y hy hyst
                        have : y = t := eq_of_mem_nodup_ids hnd2 hy htmem hyid
                        rw [this, htcomp] at hyst
                        exact absurd hyst (by simp)
              · exact ⟨hnd2, hinv2⟩

/-- C1: in every state reachable without the explicit `activate task` command,
at most one task is `in_progress` (corrected: `activate_task` itself does not
demote the previously active task, so the unrestricted claim fails). -/
theorem claim_C1 (a : SohayAgent) (h : ReachedNA a) :
    (a.tasks.filter (fun t => t.status == Status.inProgress)).length ≤ 1 := by
  have hinv : invOK a := by
    induction h with
    | refl =>
      refine ⟨by simp [initialAgent], ?_⟩
      intro t ht
      simp [initialAgent] at ht
    | tail hr hstep ih => exact invOK_step hstep ih
  exact invOK_filter_le_one _ hinv

def c1ops : List AOp :=
  [.add "alpha" 1 none none none 5 101,
   .add "beta" 1 none none none 6 102,
   .activate "1",
   .activate "2"]

def c1naops : List AOp :=
  [.add "alpha" 1 none none none 5 101,
   .enable,
   .tick soloEnv 100 900]

/-- C1 counterexample: two `activate task` commands leave two tasks
`in_progress` at once, since `activate_task` never demotes the previously
active task. -/
theorem claim_C1_counterexample :
    Reached (runOps c1ops initialAgent) ∧
    ((runOps c1ops initialAgent).tasks.map Task.status)
      = [Status.inProgress, Status.inProgress] ∧
    (runOps c1ops initialAgent).activeTask = some 102 :=
  ⟨reached_of_validOps (by decide), by decide, by decide⟩

/-- C1 witness: a concrete activate-free trace satisfies the bound. -/
theorem claim_C1_witness :
    ((runOps c1naops initialAgent).tasks.filter
      (fun t => t.status == Status.inProgress)).length ≤ 1 :=
  claim_C1 (runOps c1naops initialAgent)
    (reachedNA_of_validOps (by decide) (by decide))

end Sohay
